import Mathlib

/-!
Shallow embedding of the fieldLens sector-progression core
(`app/routes/whatsapp.py`, `app/routes/jobs.py`).

The document store is modelled as explicit lists of job and photo records
threaded through each handler; Mongo's `find_one` is first-match search,
`update_one` with a filter is first-match in-place replacement, and the
positional `sectors.$` operator targets the first sector element matching
the filter.  Effectful collaborators (media fetch, blob put, image decode,
the validation pipeline, Twilio) are surfaced as explicit parameters: the
success/failure of each I/O step is a `Bool` argument and the pipeline is a
function from its inputs to a verdict record.
-/

namespace FieldLens

/-- Sector Progress record embedded in a job (`schemas.py: SectorProgress`,
and the dicts built in `jobs.py`/`whatsapp.py`). -/
structure Sector where
  sector : Int
  requiredTypes : List String
  currentIndex : Nat
  status : String
deriving Repr, DecidableEq

/-- The pipeline's extracted-fields map; only the three keys the routes
ever read (`macId`, `rsn`, `azimuthDeg`) are modelled, the values kept as
their serialized string forms (the routes only test and copy them). -/
structure VFields where
  macId : Option String := none
  rsn : Option String := none
  azimuthDeg : Option String := none
deriving Repr, DecidableEq

/-- Verdict dict returned by `run_pipeline` (consumed via `.get`, hence
every key is optional). -/
structure Verdict where
  type : Option String := none
  status : Option String := none
  reason : Option (List String) := none
  phash : Option String := none
  fields : Option VFields := none
  checks : Option (List (String × String)) := none
  ocrText : Option String := none
deriving Repr, DecidableEq

/-- Photo document as inserted/updated by the routes. -/
structure Photo where
  jobId : String
  sector : Int
  type : String
  s3Key : String
  s3Url : Option String := none
  phash : Option String := none
  ocrText : Option String := none
  fields : VFields := {}
  checks : List (String × String) := []
  status : Option String := none
  reason : List String := []
deriving Repr, DecidableEq

/-- Job document. -/
structure Job where
  _id : String
  workerPhone : String
  siteId : String
  sectors : List Sector
  status : String
  macId : Option String := none
  rsnId : Option String := none
  azimuthDeg : Option String := none
  createdAt : String := ""
deriving Repr, DecidableEq

/-- The document store: the `jobs` and `photos` collections, each in
insertion order (Mongo `_id` order for these routes). -/
structure DB where
  jobs : List Job
  photos : List Photo
deriving Repr, DecidableEq

/-- Python truthiness of an optional string (`if x:`): present and
non-empty. -/
def truthyS (o : Option String) : Bool :=
  match o with
  | some s => s ≠ ""
  | none => false

/-- Python `a or b` for an optional string `a` and a string default. -/
def pyOrS (a : Option String) (b : String) : String :=
  match a with
  | some s => if s = "" then b else s
  | none => b

/-- Python `.upper()` on the ASCII status/type tokens this code uses:
character-wise uppercasing.  (Defined character-wise so that concrete
instances reduce inside the kernel.) -/
def py_upper (s : String) : String :=
  String.mk (s.data.map Char.toUpper)

/-- Python `.strip()`: drop leading and trailing whitespace.  (Defined
character-wise so that concrete instances reduce inside the kernel.) -/
def py_strip (s : String) : String :=
  String.mk (((s.data.dropWhile Char.isWhitespace).reverse.dropWhile
    Char.isWhitespace).reverse)

/-- `sector_by_id` (whatsapp.py lines 31-40; jobs.py imports the same
helper from `app.utils`): first sector record with the given number. -/
def sector_by_id (sectors : List Sector) (sid : Int) : Option Sector :=
  sectors.find? (fun s => s.sector == sid)

/-- `_current_expected_type_for_sector` (whatsapp.py lines 42-51):
`requiredTypes[currentIndex]` of the given sector when in range. -/
def _current_expected_type_for_sector (job : Job) (sid : Int) : Option String :=
  match sector_by_id job.sectors sid with
  | none => none
  | some sec => sec.requiredTypes[sec.currentIndex]?

/-- The loop condition `st != "DONE" and idx < len(req)` inlined by both
`_pick_active_sector` (line 62) and `all_sectors_done` (line 76). -/
def sector_incomplete (s : Sector) : Bool :=
  py_upper s.status != "DONE" && decide (s.currentIndex < s.requiredTypes.length)

/-- `_pick_active_sector` (whatsapp.py lines 53-67): number of the first
sector that is not DONE and has remaining required types. -/
def _pick_active_sector (job : Job) : Option Int :=
  (job.sectors.find? sector_incomplete).map (fun s => s.sector)

/-- `all_sectors_done` (whatsapp.py lines 69-78): false on an empty (or
missing) list, else true iff no sector is still incomplete. -/
def all_sectors_done (sectors : List Sector) : Bool :=
  !sectors.isEmpty && sectors.all (fun s => !sector_incomplete s)

/-- The `prev_phashes` list comprehension (whatsapp.py lines 161-173 and
480-492): truthy phashes of resolved photos of the same job, sector and
expected type. -/
def prev_phashes (photos : List Photo) (jobId : String) (sector : Int)
    (expected : Option String) : List String :=
  (photos.filter (fun p =>
      p.jobId == jobId && p.sector == sector &&
      p.type == py_upper (expected.getD "") &&
      (p.status == some "PASS" || p.status == some "FAIL"))).filterMap
    (fun p => match p.phash with
      | some h => if h = "" then none else some h
      | none => none)

/-- `result_type = (result.get("type") or expected or "LABELLING").upper()`
(whatsapp.py lines 194 and 519). -/
def effective_result_type (v : Verdict) (expected : Option String) : String :=
  py_upper (pyOrS v.type (pyOrS expected "LABELLING"))

/-- The advance guard
`status == "PASS" and expected and result_type == expected`
(whatsapp.py lines 214 and 543), with `status` already uppercased. -/
def advance_cond (status result_type : String) (expected : Option String) : Bool :=
  status == "PASS" &&
    (match expected with
     | none => false
     | some e => e != "" && result_type == e)

/-- Mongo `update_one`: replace the first job matching the filter. -/
def update_first_job (jobs : List Job) (p : Job → Bool) (f : Job → Job) : List Job :=
  match jobs with
  | [] => []
  | j :: rest => if p j then f j :: rest else j :: update_first_job rest p f

/-- Positional `sectors.$` update: replace the first sector with the given
number. -/
def update_first_sector (sectors : List Sector) (sid : Int) (f : Sector → Sector) :
    List Sector :=
  match sectors with
  | [] => []
  | s :: rest =>
    if s.sector == sid then f s :: rest else s :: update_first_sector rest sid f

/-- First-match photo update (used reversed, for the newest-first lookup). -/
def update_first_photo (photos : List Photo) (p : Photo → Bool) (f : Photo → Photo) :
    List Photo :=
  match photos with
  | [] => []
  | ph :: rest => if p ph then f ph :: rest else ph :: update_first_photo rest p f

/-- `find_one({"jobId": id}, sort=[("_id", -1)])` followed by an update of
that photo (whatsapp.py lines 197-210): update the newest photo of the job,
a no-op when the job has none. -/
def update_last_photo (photos : List Photo) (jobId : String) (f : Photo → Photo) :
    List Photo :=
  (update_first_photo photos.reverse (fun p => p.jobId == jobId) f).reverse

/-- The `{"$set": updates}` rollup promotion (whatsapp.py lines 183-192 and
503-512) applied to the matched job document. -/
def promote_one (fields : VFields) (j : Job) : Job :=
  { j with
    macId := if truthyS fields.macId then fields.macId else j.macId,
    rsnId := if truthyS fields.rsn then fields.rsn else j.rsnId,
    azimuthDeg := if fields.azimuthDeg.isSome then fields.azimuthDeg else j.azimuthDeg }

/-- The photo overwrite applied to the newest photo (whatsapp.py
lines 199-210). -/
def resolve_photo (result_type : String) (v : Verdict) (ph : Photo) : Photo :=
  { ph with
    type := result_type,
    phash := v.phash,
    ocrText := v.ocrText,
    fields := v.fields.getD {},
    checks := v.checks.getD [],
    status := v.status,
    reason := v.reason.getD [] }

/-- The photo document inserted by the direct-upload route (`debug_upload`,
whatsapp.py lines 525-537). -/
def debug_photo_doc (jobId : String) (sector : Int) (key : String)
    (s3Url : Option String) (result_type : String) (v : Verdict) : Photo :=
  { jobId := jobId,
    sector := sector,
    type := result_type,
    s3Key := key,
    s3Url := s3Url,
    phash := v.phash,
    ocrText := v.ocrText,
    fields := v.fields.getD {},
    checks := v.checks.getD [],
    status := v.status,
    reason := v.reason.getD [] }

/-- The `$inc` payload of the advance update (whatsapp.py line 217). -/
def inc_current_index (s : Sector) : Sector :=
  { s with currentIndex := s.currentIndex + 1 }

/-- The `$set` payload marking a sector DONE (whatsapp.py line 229). -/
def set_sector_done (s : Sector) : Sector :=
  { s with status := "DONE" }

/-- Job-level form of the positional sector update. -/
def job_update_sector (sid : Int) (f : Sector → Sector) (j : Job) : Job :=
  { j with sectors := update_first_sector j.sectors sid f }

/-- The `$set` payload marking a job DONE (whatsapp.py lines 235 and 330). -/
def set_job_done (j : Job) : Job :=
  { j with status := "DONE" }

/-- Filter `{"_id": id}`. -/
def id_filter (id : String) (j : Job) : Bool :=
  j._id == id

/-- Filter `{"_id": id, "sectors.sector": n}`. -/
def id_sector_filter (id : String) (sid : Int) (j : Job) : Bool :=
  j._id == id && j.sectors.any (fun s => s.sector == sid)

/-- `_process_and_notify` (whatsapp.py lines 132-282), state part.  The
validation pipeline is a parameter mapping (expected-type context,
reference-hash set) to a verdict; `decode_ok` is false when `load_bgr`
fails and `pipeline_ok` is false when `run_pipeline` raises — in either
case the task-boundary `except` swallows the error with no state changed.
The outbound Twilio message does not touch the store and is omitted. -/
def _process_and_notify (pipeline : Option String → List String → Verdict)
    (db : DB) (job_id : String) (active_sector : Int)
    (decode_ok : Bool) (pipeline_ok : Bool) : DB :=
  match db.jobs.find? (fun j => j._id == job_id) with
  | none => db
  | some job =>
    let expected := _current_expected_type_for_sector job active_sector
    if !decode_ok then db else
    let hashes := prev_phashes db.photos job._id active_sector expected
    if !pipeline_ok then db else
    let result := pipeline expected hashes
    let fields := result.fields.getD {}
    let db1 : DB :=
      if truthyS fields.macId || truthyS fields.rsn || fields.azimuthDeg.isSome then
        { db with jobs := update_first_job db.jobs (id_filter job._id) (promote_one fields) }
      else db
    let result_type := effective_result_type result expected
    let db2 : DB :=
      { db1 with photos := update_last_photo db1.photos job._id
                             (resolve_photo result_type result) }
    let status := py_upper (result.status.getD "")
    if advance_cond status result_type expected then
      let jobs3 := update_first_job db2.jobs (id_sector_filter job._id active_sector)
          (job_update_sector active_sector inc_current_index)
      let db3 : DB := { db2 with jobs := jobs3 }
      match db3.jobs.find? (fun j => j._id == job._id) with
      | none => db3
      | some job2 =>
        match sector_by_id job2.sectors active_sector with
        | none =>
          if all_sectors_done job2.sectors then
            { db3 with jobs := update_first_job db3.jobs (id_filter job._id) set_job_done }
          else db3
        | some sec_doc =>
          if sec_doc.requiredTypes.length ≤ sec_doc.currentIndex then
            let jobs4 := update_first_job db3.jobs (id_sector_filter job._id active_sector)
                (job_update_sector active_sector set_sector_done)
            let db4 : DB := { db3 with jobs := jobs4 }
            match db4.jobs.find? (fun j => j._id == job._id) with
            | none => db4
            | some job3 =>
              if all_sectors_done job3.sectors then
                { db4 with jobs := update_first_job db4.jobs (id_filter job._id) set_job_done }
              else db4
          else
            if all_sectors_done job2.sectors then
              { db3 with jobs := update_first_job db3.jobs (id_filter job._id) set_job_done }
            else db3
    else
      if all_sectors_done job.sectors then
        { db2 with jobs := update_first_job db2.jobs (id_filter job._id) set_job_done }
      else db2

/-- Modelled from the spec: `normalize_phone` lives in `app/utils.py`,
which is not under src/; the spec describes it as producing a
"normalized phone identifier (canonical digits-only or E.164-like form)".
Modelled as the canonical digits-only form. -/
def normalize_phone (s : String) : String :=
  s.toList.filter Char.isDigit |> String.mk

/-- Modelled from the spec: the contract of the external Validation
Pipeline (`run_pipeline` in `app/services/validate.py`, not under src/):
"Output = \x7btype: string, status: PASS|FAIL, reason: string[], ...\x7d"
together with the Photo-record invariant "`reason`: ... empty when
`status == PASS`".  A well-formed verdict resolves to PASS or FAIL and
carries no failure reasons on PASS. -/
def verdict_wf (v : Verdict) : Prop :=
  (v.status = some "PASS" ∨ v.status = some "FAIL") ∧
  (v.status = some "PASS" → v.reason.getD [] = [])

instance (v : Verdict) : Decidable (verdict_wf v) := by
  unfold verdict_wf; infer_instance

/-- Replies produced by the webhook (`build_twiml_reply` call sites and the
unhandled-exception 500, whatsapp.py lines 288-414); prompt-style replies
carry the fallback type they name. -/
inductive Reply
  | noActiveJob
  | allComplete
  | prompt (fallback : String)
  | invalidImage (fallback : String)
  | fetchFailed (fallback : String)
  | saveFailed
  | ack
  | serverError
deriving Repr, DecidableEq

/-- Arguments handed to `background.add_task` (whatsapp.py lines 400-408);
the raw bytes are opaque and omitted. -/
structure BgTask where
  worker : String
  jobId : String
  sector : Int
  hint : String
deriving Repr, DecidableEq

/-- `whatsapp_webhook` (whatsapp.py lines 288-414), state part.  Inputs of
the inbound Twilio form are parameters (`from_param`, `media_count`,
`media_is_image` for the `MediaUrl0`/content-type check); the outcomes of
the media fetch and of the blob-put/photo-insert block are the Booleans
`fetch_ok` and `persist_ok`; `key` is the blob key generated by
`new_image_key` and `s3Url` the locator returned by `put_bytes`.  Returns
the new store, the scheduled background task (if any) and the reply. -/
def whatsapp_webhook (db : DB) (from_param : String) (media_count : Nat)
    (media_is_image : Bool) (fetch_ok : Bool) (persist_ok : Bool)
    (key : String) (s3Url : Option String) : DB × Option BgTask × Reply :=
  let from_num := normalize_phone from_param
  match db.jobs.find? (fun j =>
      j.workerPhone == from_num && (j.status == "PENDING" || j.status == "IN_PROGRESS")) with
  | none => (db, none, Reply.noActiveJob)
  | some job0 =>
    let db1 : DB :=
      if job0.status == "PENDING" then
        { db with jobs := update_first_job db.jobs (id_filter job0._id)
                            (fun j => { j with status := "IN_PROGRESS" }) }
      else db
    match (if job0.status == "PENDING" then db1.jobs.find? (id_filter job0._id) else some job0) with
    | none => (db1, none, Reply.serverError)
    | some job =>
      match _pick_active_sector job with
      | none =>
        let db2 : DB :=
          { db1 with jobs := update_first_job db1.jobs (id_filter job._id) set_job_done }
        (db2, none, Reply.allComplete)
      | some active_sector =>
        let expected := _current_expected_type_for_sector job active_sector
        if media_count = 0 then
          (db1, none, Reply.prompt (pyOrS expected "LABELLING"))
        else if !media_is_image then
          (db1, none, Reply.invalidImage (pyOrS expected "LABELLING"))
        else if !fetch_ok then
          (db1, none, Reply.fetchFailed (pyOrS expected "LABELLING"))
        else
          let result_hint := py_upper (pyOrS expected "LABELLING")
          if !persist_ok then
            (db1, none, Reply.saveFailed)
          else
            let placeholder : Photo :=
              { jobId := job._id,
                sector := active_sector,
                type := result_hint,
                s3Key := key,
                s3Url := s3Url,
                phash := none,
                ocrText := none,
                fields := {},
                checks := [],
                status := some "PROCESSING",
                reason := [] }
            let db2 : DB := { db1 with photos := db1.photos ++ [placeholder] }
            (db2, some ⟨from_num, job._id, active_sector, result_hint⟩, Reply.ack)

/-- One inbound messaging event processed to completion: the synchronous
webhook followed by the background `_process_and_notify` task it scheduled
(if any). -/
def process_inbound_event (pipeline : Option String → List String → Verdict)
    (db : DB) (from_param : String) (media_count : Nat)
    (media_is_image fetch_ok persist_ok decode_ok pipeline_ok : Bool)
    (key : String) (s3Url : Option String) : DB × Reply :=
  match whatsapp_webhook db from_param media_count media_is_image fetch_ok persist_ok key s3Url with
  | (db1, none, reply) => (db1, reply)
  | (db1, some task, reply) =>
    (_process_and_notify pipeline db1 task.jobId task.sector decode_ok pipeline_ok, reply)

/-- `create_or_extend_job` (jobs.py lines 117-157).
`build_required_types_for_sector` lives in `app/utils.py` (not under src/;
the spec only fixes it as a deterministic mapping from the sector number,
external to this core), so it is a parameter `reqFor`.  `now` is the
creation timestamp and `new_id` the id Mongo assigns on insert.  The
result pairs the (possibly updated) store with either the returned job or
the HTTP error raised; an error is raised before any write, so the store
is returned unchanged in that case exactly as in the source. -/
def create_or_extend_job (reqFor : Int → List String) (db : DB)
    (workerPhone siteId : String) (sector : Int) (now new_id : String) :
    DB × Except String Job :=
  let worker := py_strip workerPhone
  let site := py_strip siteId
  let worker_phone := normalize_phone worker
  if worker = "" || site = "" then
    (db, Except.error "workerPhone and siteId are required")
  else
    let sector_block : Sector :=
      { sector := sector, requiredTypes := reqFor sector, currentIndex := 0,
        status := "PENDING" }
    match db.jobs.find? (fun j => j.workerPhone == worker_phone && j.siteId == site) with
    | none =>
      let doc : Job :=
        { _id := new_id, workerPhone := worker_phone, siteId := site,
          sectors := [sector_block], status := "PENDING", createdAt := now }
      ({ db with jobs := db.jobs ++ [doc] }, Except.ok doc)
    | some base =>
      match sector_by_id base.sectors sector with
      | some _ => (db, Except.error "Sector already exists for this worker/site")
      | none =>
        let jobs' := update_first_job db.jobs (id_filter base._id)
            (fun j => { j with sectors := j.sectors ++ [sector_block] })
        let db' : DB := { db with jobs := jobs' }
        match db'.jobs.find? (id_filter base._id) with
        | some updated => (db', Except.ok updated)
        | none => (db', Except.error "Job not found")

/-- Observer: the record of sector `sid` of job `jid` in the store. -/
def sector_state (db : DB) (jid : String) (sid : Int) : Option Sector :=
  match db.jobs.find? (fun j => j._id == jid) with
  | none => none
  | some j => sector_by_id j.sectors sid

/-- Observer: the record of job `jid` in the store. -/
def job_state (db : DB) (jid : String) : Option Job :=
  db.jobs.find? (fun j => j._id == jid)

/-- The cumulative effect of one `_process_and_notify` run on the job
record it targets, read off the source: optional rollup promotion, then on
a passed advance guard the `$inc`, the derived sector-DONE `$set`, and the
job-DONE `$set`; otherwise only the job-DONE recheck against the stale
snapshot. -/
def orch_job (v : Verdict) (sec : Int) (job : Job) : Job :=
  let expected := _current_expected_type_for_sector job sec
  let fields := v.fields.getD {}
  let j1 :=
    if truthyS fields.macId || truthyS fields.rsn || fields.azimuthDeg.isSome then
      promote_one fields job
    else job
  let result_type := effective_result_type v expected
  let status := py_upper (v.status.getD "")
  if advance_cond status result_type expected then
    let j2 := job_update_sector sec inc_current_index j1
    match sector_by_id j2.sectors sec with
    | none => if all_sectors_done j2.sectors then set_job_done j2 else j2
    | some sd =>
      if sd.requiredTypes.length ≤ sd.currentIndex then
        let j3 := job_update_sector sec set_sector_done j2
        if all_sectors_done j3.sectors then set_job_done j3 else j3
      else
        if all_sectors_done j2.sectors then set_job_done j2 else j2
  else
    if all_sectors_done job.sectors then set_job_done j1 else j1

/-- The effect of one `_process_and_notify` run on the targeted sector
record itself: `$inc` then the derived DONE `$set` exactly on a passed
advance guard. -/
def orch_sector (v : Verdict) (s : Sector) : Sector :=
  let expected := s.requiredTypes[s.currentIndex]?
  let result_type := effective_result_type v expected
  let status := py_upper (v.status.getD "")
  if advance_cond status result_type expected then
    let s2 := inc_current_index s
    if s2.requiredTypes.length ≤ s2.currentIndex then set_sector_done s2 else s2
  else s

def ex_sector1 : Sector :=
  { sector := 1, requiredTypes := ["LABELLING", "AZIMUTH"], currentIndex := 0,
    status := "IN_PROGRESS" }

def ex_job1 : Job :=
  { _id := "J1", workerPhone := "9999", siteId := "S1", sectors := [ex_sector1],
    status := "IN_PROGRESS" }

def ex_db1 : DB := { jobs := [ex_job1], photos := [] }

def ex_verdict_lower : Verdict :=
  { type := some "labelling", status := some "PASS", reason := some [],
    phash := some "h1" }

def ex_pipeline_lower : Option String → List String → Verdict :=
  fun _ _ => ex_verdict_lower

def ex_verdict_upper : Verdict :=
  { type := some "LABELLING", status := some "PASS", reason := some [],
    phash := some "h1" }

def ex_pipeline_upper : Option String → List String → Verdict :=
  fun _ _ => ex_verdict_upper

def ex_sectorB : Sector :=
  { sector := 1, requiredTypes := ["LABELLING"], currentIndex := 0,
    status := "IN_PROGRESS" }

def ex_jobB : Job :=
  { _id := "J1", workerPhone := "9999", siteId := "S1", sectors := [ex_sectorB],
    status := "IN_PROGRESS" }

def ex_dbB : DB := { jobs := [ex_jobB], photos := [] }

def ex_verdict_notype : Verdict :=
  { type := none, status := some "PASS", reason := some [], phash := some "h1" }

def ex_pipeline_notype : Option String → List String → Verdict :=
  fun _ _ => ex_verdict_notype

def ex_selJob : Job :=
  { _id := "X", workerPhone := "9999", siteId := "S1",
    sectors := [{ sector := 1, requiredTypes := ["A", "B"], currentIndex := 2,
                  status := "DONE" },
                { sector := 2, requiredTypes := ["A", "B", "C"], currentIndex := 0,
                  status := "PENDING" }],
    status := "IN_PROGRESS" }

def ex_ssC : List Sector :=
  [{ sector := 1, requiredTypes := ["LABELLING"], currentIndex := 1,
     status := "PENDING" }]

def ex_photo_pass : Photo :=
  { jobId := "J1", sector := 1, type := "LABELLING", s3Key := "k",
    phash := some "h1", status := some "PASS" }

/-! ### First-match search and update lemmas

Mongo guarantees `_id` uniqueness; under that hypothesis the first-match
`find_one`/`update_one` calls are characterized pointwise. -/

theorem find?_of_mem_nodup (jobs : List Job) (jid : String) (job : Job)
    (hnd : (jobs.map (fun j => j._id)).Nodup) (hmem : job ∈ jobs)
    (hid : job._id = jid) :
    jobs.find? (fun j => j._id == jid) = some job := by
  induction jobs with
  | nil => cases hmem
  | cons a l ih =>
    simp only [List.map_cons, List.nodup_cons, List.mem_map] at hnd
    rcases List.mem_cons.mp hmem with rfl | hmem2
    · simp [List.find?_cons, hid]
    · have hne : ¬ (a._id == jid) = true := by
        intro hbeq
        exact hnd.1 ⟨job, hmem2, by rw [hid, ← eq_of_beq hbeq]⟩
      simp only [List.find?_cons, hne, Bool.false_eq_true, if_neg, cond_eq_if]
      exact ih hnd.2 hmem2

theorem eq_of_find?_nodup (jobs : List Job) (jid : String) (job : Job)
    (hnd : (jobs.map (fun j => j._id)).Nodup)
    (hfind : jobs.find? (fun j => j._id == jid) = some job) :
    ∀ j ∈ jobs, j._id = jid → j = job := by
  intro j hmem hid
  have h2 := find?_of_mem_nodup jobs jid j hnd hmem hid
  rw [hfind] at h2
  exact (Option.some.injEq _ _ ▸ h2.symm)

theorem map_if_id_of_not_mem (l : List Job) (jid : String) (x : Job)
    (h : ∀ j ∈ l, j._id ≠ jid) :
    l.map (fun j => if j._id = jid then x else j) = l := by
  induction l with
  | nil => rfl
  | cons a l ih =>
    simp only [List.map_cons]
    rw [if_neg (h a (List.mem_cons_self _ _)), ih (fun j hj => h j (List.mem_cons_of_mem a hj))]

theorem map_if_self (jobs : List Job) (jid : String) (job : Job)
    (hnd : (jobs.map (fun j => j._id)).Nodup)
    (hfind : jobs.find? (fun j => j._id == jid) = some job) :
    jobs.map (fun j => if j._id = jid then job else j) = jobs := by
  have huniq := eq_of_find?_nodup jobs jid job hnd hfind
  induction jobs with
  | nil => rfl
  | cons a l ih =>
    simp only [List.map_cons]
    by_cases ha : a._id = jid
    · have : a = job := huniq a (List.mem_cons_self _ _) ha
      subst this
      rw [if_pos ha]
      congr 1
      apply map_if_id_of_not_mem
      intro j hj hjid
      simp only [List.map_cons, List.nodup_cons, List.mem_map] at hnd
      exact hnd.1 ⟨j, hj, by rw [hjid, ha]⟩
    · rw [if_neg ha]
      congr 1
      have hfind2 : l.find? (fun j => j._id == jid) = some job := by
        have hne : ¬ (a._id == jid) = true := fun hbeq => ha (eq_of_beq hbeq)
        simpa [List.find?_cons, hne] using hfind
      have hnd2 : (l.map (fun j => j._id)).Nodup := by
        simp only [List.map_cons, List.nodup_cons] at hnd
        exact hnd.2
      exact ih hnd2 hfind2 (fun j hj => huniq j (List.mem_cons_of_mem a hj))

theorem update_first_job_eq_map (jobs : List Job) (jid : String) (job : Job)
    (q : Job → Bool) (f : Job → Job)
    (hnd : (jobs.map (fun j => j._id)).Nodup)
    (hfind : jobs.find? (fun j => j._id == jid) = some job)
    (hq : q job = true) (hqid : ∀ j ∈ jobs, q j = true → j._id = jid) :
    update_first_job jobs q f = jobs.map (fun j => if j._id = jid then f job else j) := by
  induction jobs with
  | nil => rfl
  | cons a l ih =>
    by_cases hqa : q a = true
    · have haid : a._id = jid := hqid a (List.mem_cons_self _ _) hqa
      have haj : a = job := eq_of_find?_nodup _ jid job hnd hfind a (List.mem_cons_self _ _) haid
      subst haj
      simp only [update_first_job, if_pos hqa, List.map_cons, if_pos haid]
      congr 1
      symm
      apply map_if_id_of_not_mem
      intro j hj hjid
      simp only [List.map_cons, List.nodup_cons, List.mem_map] at hnd
      exact hnd.1 ⟨j, hj, by rw [hjid, haid]⟩
    · have hane : ¬ (a._id = jid) := by
        intro haid
        have hbeq : (a._id == jid) = true := beq_iff_eq.mpr haid
        have : a = job := by
          have := hfind
          simp only [List.find?_cons, hbeq, cond_eq_if, if_pos] at this
          exact (Option.some.injEq _ _ ▸ this)
        rw [this] at hqa
        exact hqa hq
      have hne : ¬ (a._id == jid) = true := fun hbeq => hane (eq_of_beq hbeq)
      have hfind2 : l.find? (fun j => j._id == jid) = some job := by
        simpa [List.find?_cons, hne] using hfind
      have hnd2 : (l.map (fun j => j._id)).Nodup := by
        simp only [List.map_cons, List.nodup_cons] at hnd
        exact hnd.2
      simp only [update_first_job, List.map_cons, if_neg hane]
      rw [if_neg hqa]
      congr 1
      exact ih hnd2 hfind2 (fun j hj => hqid j (List.mem_cons_of_mem a hj))

theorem find?_map_if (jobs : List Job) (jid : String) (job nj : Job)
    (hfind : jobs.find? (fun j => j._id == jid) = some job)
    (hid : nj._id = jid) :
    (jobs.map (fun j => if j._id = jid then nj else j)).find? (fun j => j._id == jid) =
      some nj := by
  induction jobs with
  | nil => simp at hfind
  | cons a l ih =>
    by_cases ha : a._id = jid
    · simp [List.find?_cons, if_pos ha, hid]
    · have hne : ¬ (a._id == jid) = true := fun hbeq => ha (eq_of_beq hbeq)
      have hfind2 : l.find? (fun j => j._id == jid) = some job := by
        simpa [List.find?_cons, hne] using hfind
      simp only [List.map_cons, if_neg ha, List.find?_cons, hne, Bool.false_eq_true,
        if_neg, cond_eq_if]
      exact ih hfind2

theorem ids_map_if (jobs : List Job) (jid : String) (nj : Job)
    (hid : nj._id = jid) :
    (jobs.map (fun j => if j._id = jid then nj else j)).map (fun j => j._id) =
      jobs.map (fun j => j._id) := by
  induction jobs with
  | nil => rfl
  | cons a l ih =>
    simp only [List.map_cons]
    by_cases ha : a._id = jid
    · rw [if_pos ha, hid, ha, ih]
    · rw [if_neg ha, ih]

theorem map_if_map_if (jobs : List Job) (jid : String) (a b : Job)
    (hid : a._id = jid) :
    (jobs.map (fun j => if j._id = jid then a else j)).map
        (fun j => if j._id = jid then b else j) =
      jobs.map (fun j => if j._id = jid then b else j) := by
  induction jobs with
  | nil => rfl
  | cons c l ih =>
    simp only [List.map_cons]
    by_cases hc : c._id = jid
    · rw [if_pos hc, if_pos hid, if_pos hc, ih]
    · rw [if_neg hc, if_neg hc, ih]

theorem promote_one_sectors (f : VFields) (j : Job) :
    (promote_one f j).sectors = j.sectors := rfl

theorem promote_one_id (f : VFields) (j : Job) :
    (promote_one f j)._id = j._id := rfl

theorem promote_one_status (f : VFields) (j : Job) :
    (promote_one f j).status = j.status := rfl

theorem job_update_sector_id (sid : Int) (f : Sector → Sector) (j : Job) :
    (job_update_sector sid f j)._id = j._id := rfl

theorem job_update_sector_status (sid : Int) (f : Sector → Sector) (j : Job) :
    (job_update_sector sid f j).status = j.status := rfl

theorem job_update_sector_sectors (sid : Int) (f : Sector → Sector) (j : Job) :
    (job_update_sector sid f j).sectors = update_first_sector j.sectors sid f := rfl

theorem set_job_done_id (j : Job) : (set_job_done j)._id = j._id := rfl

theorem set_job_done_sectors (j : Job) : (set_job_done j).sectors = j.sectors := rfl

theorem set_job_done_status (j : Job) : (set_job_done j).status = "DONE" := rfl

theorem inc_current_index_sector (s : Sector) :
    (inc_current_index s).sector = s.sector := rfl

theorem set_sector_done_sector (s : Sector) :
    (set_sector_done s).sector = s.sector := rfl

theorem sector_by_id_update_self (ss : List Sector) (sid : Int) (s : Sector)
    (f : Sector → Sector) (hs : sector_by_id ss sid = some s)
    (hf : (f s).sector = s.sector) :
    sector_by_id (update_first_sector ss sid f) sid = some (f s) := by
  induction ss with
  | nil => simp [sector_by_id] at hs
  | cons a l ih =>
    by_cases ha : (a.sector == sid) = true
    · have : a = s := by
        simp only [sector_by_id, List.find?_cons, ha, cond_eq_if, if_pos] at hs
        exact (Option.some.injEq _ _ ▸ hs)
      subst this
      simp [update_first_sector, ha, sector_by_id, List.find?_cons, hf]
    · have hs2 : sector_by_id l sid = some s := by
        simpa [sector_by_id, List.find?_cons, ha] using hs
      simp only [update_first_sector]
      rw [if_neg ha]
      have hred : sector_by_id (a :: update_first_sector l sid f) sid =
          sector_by_id (update_first_sector l sid f) sid := by
        simp [sector_by_id, List.find?_cons, ha]
      rw [hred]
      exact ih hs2

theorem any_sector_of_by_id (ss : List Sector) (sid : Int) (s : Sector)
    (hs : sector_by_id ss sid = some s) :
    ss.any (fun x => x.sector == sid) = true := by
  have hs2 : ss.find? (fun x => x.sector == sid) = some s := hs
  have hpred := List.find?_some (p := fun (x : Sector) => x.sector == sid) hs2
  exact List.any_eq_true.mpr ⟨s, List.mem_of_find?_eq_some hs2, hpred⟩

theorem bool_and_left {a b : Bool} (h : (a && b) = true) : a = true := by
  cases a
  · simp at h
  · rfl

theorem bool_or_elim {a b : Bool} (h : (a || b) = true) : a = true ∨ b = true := by
  cases a
  · right; simpa using h
  · left; rfl

theorem bool_and_intro {a b : Bool} (h1 : a = true) (h2 : b = true) :
    (a && b) = true := by
  rw [h1, h2]; rfl

theorem update_first_job_map_if (jobs : List Job) (jid : String) (job a : Job)
    (q : Job → Bool) (f : Job → Job)
    (hnd : (jobs.map (fun j => j._id)).Nodup)
    (hfind : jobs.find? (fun j => j._id == jid) = some job)
    (haid : a._id = jid) (hq : q a = true)
    (hqid : ∀ j, q j = true → j._id = jid) :
    update_first_job (jobs.map (fun j => if j._id = jid then a else j)) q f =
      jobs.map (fun j => if j._id = jid then f a else j) := by
  have hnd2 : ((jobs.map (fun j => if j._id = jid then a else j)).map
      (fun j => j._id)).Nodup := by
    rw [ids_map_if jobs jid a haid]; exact hnd
  have hfind2 := find?_map_if jobs jid job a hfind haid
  rw [update_first_job_eq_map _ jid a q f hnd2 hfind2 hq (fun j _ hj => hqid j hj)]
  exact map_if_map_if jobs jid a (f a) haid

theorem advance_cond_expected (st rt : String) (e : Option String)
    (h : advance_cond st rt e = true) :
    ∃ t, e = some t ∧ t ≠ "" ∧ rt = t ∧ st = "PASS" := by
  cases e with
  | none => simp [advance_cond] at h
  | some t =>
    refine ⟨t, rfl, ?_, ?_, ?_⟩
    · simp only [advance_cond, Bool.and_eq_true, bne_iff_ne, beq_iff_eq] at h
      exact h.2.1
    · simp only [advance_cond, Bool.and_eq_true, bne_iff_ne, beq_iff_eq] at h
      exact h.2.2
    · simp only [advance_cond, Bool.and_eq_true, beq_iff_eq] at h
      exact h.1

theorem expected_some_sector (job : Job) (sec : Int) (t : String)
    (h : _current_expected_type_for_sector job sec = some t) :
    ∃ s, sector_by_id job.sectors sec = some s ∧
      s.requiredTypes[s.currentIndex]? = some t := by
  unfold _current_expected_type_for_sector at h
  cases hs : sector_by_id job.sectors sec with
  | none => rw [hs] at h; cases h
  | some s => rw [hs] at h; exact ⟨s, rfl, h⟩

/-- Characterization of `_process_and_notify` on a successful decode and
pipeline run: the targeted job is rewritten by `orch_job` applied to the
verdict the pipeline returns for the recomputed expected type and the
(job, sector, type)-scoped reference hashes; the newest photo of the job
is overwritten with the verdict; nothing else changes. -/
theorem process_and_notify_char (pipeline : Option String → List String → Verdict)
    (db : DB) (jid : String) (sec : Int) (job : Job)
    (hnd : (db.jobs.map (fun j => j._id)).Nodup)
    (hfind : db.jobs.find? (fun j => j._id == jid) = some job) :
    _process_and_notify pipeline db jid sec true true =
      { jobs := db.jobs.map (fun j =>
          if j._id = job._id then
            orch_job (pipeline (_current_expected_type_for_sector job sec)
                (prev_phashes db.photos job._id sec
                  (_current_expected_type_for_sector job sec))) sec job
          else j),
        photos := update_last_photo db.photos job._id
          (resolve_photo
            (effective_result_type
              (pipeline (_current_expected_type_for_sector job sec)
                (prev_phashes db.photos job._id sec
                  (_current_expected_type_for_sector job sec)))
              (_current_expected_type_for_sector job sec))
            (pipeline (_current_expected_type_for_sector job sec)
              (prev_phashes db.photos job._id sec
                (_current_expected_type_for_sector job sec)))) } := by
  have hjid : job._id = jid := by
    have hp := List.find?_some (p := fun (j : Job) => j._id == jid) hfind
    exact eq_of_beq hp
  subst hjid
  set e := _current_expected_type_for_sector job sec with he
  set v := pipeline e (prev_phashes db.photos job._id sec e) with hv
  set flds := v.fields.getD {} with hflds
  set rt := effective_result_type v e with hrt
  set st := py_upper (v.status.getD "") with hst
  set j1 := (if truthyS flds.macId || truthyS flds.rsn || flds.azimuthDeg.isSome then
      promote_one flds job else job) with hj1
  have hj1id : j1._id = job._id := by
    rw [hj1]; by_cases hc : (truthyS flds.macId || truthyS flds.rsn ||
      flds.azimuthDeg.isSome) = true
    · rw [if_pos hc, promote_one_id]
    · rw [if_neg hc]
  have hj1sec : j1.sectors = job.sectors := by
    rw [hj1]; by_cases hc : (truthyS flds.macId || truthyS flds.rsn ||
      flds.azimuthDeg.isSome) = true
    · rw [if_pos hc, promote_one_sectors]
    · rw [if_neg hc]
  have hj1st : j1.status = job.status := by
    rw [hj1]; by_cases hc : (truthyS flds.macId || truthyS flds.rsn ||
      flds.azimuthDeg.isSome) = true
    · rw [if_pos hc, promote_one_status]
    · rw [if_neg hc]
  -- step 1: the store after the promote step
  have hdb1 : (if truthyS flds.macId || truthyS flds.rsn || flds.azimuthDeg.isSome then
        { db with jobs := update_first_job db.jobs (id_filter job._id) (promote_one flds) }
      else db) =
      { db with jobs := db.jobs.map (fun j => if j._id = job._id then j1 else j) } := by
    by_cases hc : (truthyS flds.macId || truthyS flds.rsn || flds.azimuthDeg.isSome) = true
    · rw [if_pos hc, hj1, if_pos hc]
      congr 1
      exact update_first_job_eq_map db.jobs job._id job (id_filter job._id)
        (promote_one flds) hnd hfind (beq_self_eq_true _)
        (fun j _ hq => eq_of_beq hq)
    · rw [if_neg hc, hj1, if_neg hc]
      cases db with
      | mk jobs photos =>
        simp only [DB.mk.injEq, and_true]
        exact (map_if_self jobs job._id job hnd hfind).symm
  have hnd1 : ((db.jobs.map (fun j => if j._id = job._id then j1 else j)).map
      (fun j => j._id)).Nodup := by
    rw [ids_map_if db.jobs job._id j1 hj1id]; exact hnd
  have hfind1 : (db.jobs.map (fun j => if j._id = job._id then j1 else j)).find?
      (fun j => j._id == job._id) = some j1 :=
    find?_map_if db.jobs job._id job j1 hfind hj1id
  unfold _process_and_notify
  rw [hfind]
  dsimp only
  simp only [Bool.not_true, Bool.false_eq_true, if_false]
  rw [← he, ← hv, ← hflds, ← hrt, ← hst]
  rw [hdb1]
  dsimp only
  simp only [orch_job]
  rw [← he, ← hflds, ← hrt, ← hst, ← hj1]
  by_cases hadv : advance_cond st rt e = true
  · -- advance branch
    rw [if_pos hadv, if_pos hadv]
    obtain ⟨t, het, htne, hrtt, hstp⟩ := advance_cond_expected st rt e hadv
    obtain ⟨s, hsbi, hreq⟩ := expected_some_sector job sec t (he ▸ het)
    have hq2 : id_sector_filter job._id sec j1 = true := by
      unfold id_sector_filter
      refine bool_and_intro ?_ ?_
      · rw [hj1id]; exact beq_self_eq_true _
      · rw [hj1sec]; exact any_sector_of_by_id job.sectors sec s hsbi
    set j2 := job_update_sector sec inc_current_index j1 with hj2
    have hj2id : j2._id = job._id := by rw [hj2, job_update_sector_id, hj1id]
    have hupd2 : update_first_job
        (db.jobs.map (fun j => if j._id = job._id then j1 else j))
        (id_sector_filter job._id sec) (job_update_sector sec inc_current_index) =
        db.jobs.map (fun j => if j._id = job._id then j2 else j) := by
      rw [hj2]
      exact update_first_job_map_if db.jobs job._id job j1
        (id_sector_filter job._id sec) (job_update_sector sec inc_current_index)
        hnd hfind hj1id hq2
        (fun j hj => eq_of_beq (bool_and_left hj))
    rw [hupd2]
    have hfind2 : (db.jobs.map (fun j => if j._id = job._id then j2 else j)).find?
        (fun j => j._id == job._id) = some j2 :=
      find?_map_if db.jobs job._id job j2 hfind hj2id
    rw [hfind2]
    dsimp only
    have hsec2 : sector_by_id j2.sectors sec = some (inc_current_index s) := by
      rw [hj2, job_update_sector_sectors, hj1sec]
      exact sector_by_id_update_self job.sectors sec s inc_current_index hsbi rfl
    rw [hsec2]
    dsimp only
    by_cases hb : (inc_current_index s).requiredTypes.length ≤
        (inc_current_index s).currentIndex
    · rw [if_pos hb, if_pos hb]
      have hq3 : id_sector_filter job._id sec j2 = true := by
        unfold id_sector_filter
        refine bool_and_intro ?_ ?_
        · rw [hj2id]; exact beq_self_eq_true _
        · exact any_sector_of_by_id j2.sectors sec (inc_current_index s) hsec2
      set j3 := job_update_sector sec set_sector_done j2 with hj3
      have hj3id : j3._id = job._id := by rw [hj3, job_update_sector_id, hj2id]
      have hupd3 : update_first_job
          (db.jobs.map (fun j => if j._id = job._id then j2 else j))
          (id_sector_filter job._id sec) (job_update_sector sec set_sector_done) =
          db.jobs.map (fun j => if j._id = job._id then j3 else j) := by
        rw [hj3]
        exact update_first_job_map_if db.jobs job._id job j2
          (id_sector_filter job._id sec) (job_update_sector sec set_sector_done)
          hnd hfind hj2id hq3
          (fun j hj => eq_of_beq (bool_and_left hj))
      rw [hupd3]
      have hfind3 : (db.jobs.map (fun j => if j._id = job._id then j3 else j)).find?
          (fun j => j._id == job._id) = some j3 :=
        find?_map_if db.jobs job._id job j3 hfind hj3id
      rw [hfind3]
      dsimp only
      by_cases hall : all_sectors_done j3.sectors = true
      · rw [if_pos hall, if_pos hall]
        have hdone : update_first_job
            (db.jobs.map (fun j => if j._id = job._id then j3 else j))
            (id_filter job._id) set_job_done =
            db.jobs.map (fun j => if j._id = job._id then set_job_done j3 else j) :=
          update_first_job_map_if db.jobs job._id job j3 (id_filter job._id)
            set_job_done hnd hfind hj3id
            (by unfold id_filter; rw [hj3id]; exact beq_self_eq_true _)
            (fun j hj => eq_of_beq hj)
        rw [hdone]
      · rw [if_neg hall, if_neg hall]
    · rw [if_neg hb, if_neg hb]
      by_cases hall : all_sectors_done j2.sectors = true
      · rw [if_pos hall, if_pos hall]
        have hdone : update_first_job
            (db.jobs.map (fun j => if j._id = job._id then j2 else j))
            (id_filter job._id) set_job_done =
            db.jobs.map (fun j => if j._id = job._id then set_job_done j2 else j) :=
          update_first_job_map_if db.jobs job._id job j2 (id_filter job._id)
            set_job_done hnd hfind hj2id
            (by unfold id_filter; rw [hj2id]; exact beq_self_eq_true _)
            (fun j hj => eq_of_beq hj)
        rw [hdone]
      · rw [if_neg hall, if_neg hall]
  · -- no-advance branch
    rw [if_neg hadv, if_neg hadv]
    by_cases hall : all_sectors_done job.sectors = true
    · rw [if_pos hall, if_pos hall]
      have hdone : update_first_job
          (db.jobs.map (fun j => if j._id = job._id then j1 else j))
          (id_filter job._id) set_job_done =
          db.jobs.map (fun j => if j._id = job._id then set_job_done j1 else j) :=
        update_first_job_map_if db.jobs job._id job j1 (id_filter job._id)
          set_job_done hnd hfind hj1id
          (by unfold id_filter; rw [hj1id]; exact beq_self_eq_true _)
          (fun j hj => eq_of_beq hj)
      rw [hdone]
    · rw [if_neg hall, if_neg hall]

theorem promote_if_id (c : Prop) [Decidable c] (flds : VFields) (job : Job) :
    (if c then promote_one flds job else job)._id = job._id := by
  split <;> simp [promote_one_id]

theorem promote_if_sectors (c : Prop) [Decidable c] (flds : VFields) (job : Job) :
    (if c then promote_one flds job else job).sectors = job.sectors := by
  split <;> simp [promote_one_sectors]

theorem promote_if_status (c : Prop) [Decidable c] (flds : VFields) (job : Job) :
    (if c then promote_one flds job else job).status = job.status := by
  split <;> simp [promote_one_status]

theorem orch_job_id (v : Verdict) (sec : Int) (job : Job) :
    (orch_job v sec job)._id = job._id := by
  unfold orch_job
  dsimp only
  repeat' split
  all_goals
    simp [set_job_done_id, job_update_sector_id, promote_one_id, promote_if_id]

theorem orch_job_status_chain (v : Verdict) (sec : Int) (job : Job) :
    (orch_job v sec job).status = "DONE" ∨
      (orch_job v sec job).status = job.status := by
  unfold orch_job
  dsimp only
  repeat' split
  all_goals
    simp [set_job_done_status, job_update_sector_status, promote_one_status,
      promote_if_status]

theorem expected_of_sector (job : Job) (sec : Int) (s : Sector)
    (hsbi : sector_by_id job.sectors sec = some s) :
    _current_expected_type_for_sector job sec = s.requiredTypes[s.currentIndex]? := by
  unfold _current_expected_type_for_sector
  rw [hsbi]

theorem orch_job_sector (v : Verdict) (sec : Int) (job : Job) (s : Sector)
    (hsbi : sector_by_id job.sectors sec = some s) :
    sector_by_id (orch_job v sec job).sectors sec = some (orch_sector v s) := by
  unfold orch_job orch_sector
  rw [expected_of_sector job sec s hsbi]
  dsimp only
  set flds := v.fields.getD {} with hflds
  set j1 := (if (truthyS flds.macId || truthyS flds.rsn || flds.azimuthDeg.isSome) = true
      then promote_one flds job else job) with hj1
  have hj1sec : j1.sectors = job.sectors := by
    rw [hj1]
    split <;> simp only [promote_one_sectors]
  by_cases hadv : advance_cond (py_upper (v.status.getD ""))
      (effective_result_type v s.requiredTypes[s.currentIndex]?)
      s.requiredTypes[s.currentIndex]? = true
  · rw [if_pos hadv, if_pos hadv]
    have hsec2 : sector_by_id (job_update_sector sec inc_current_index j1).sectors sec =
        some (inc_current_index s) := by
      rw [job_update_sector_sectors, hj1sec]
      exact sector_by_id_update_self job.sectors sec s inc_current_index hsbi rfl
    rw [hsec2]
    dsimp only
    by_cases hb : (inc_current_index s).requiredTypes.length ≤
        (inc_current_index s).currentIndex
    · rw [if_pos hb, if_pos hb]
      have hsec3 : sector_by_id
          (job_update_sector sec set_sector_done
            (job_update_sector sec inc_current_index j1)).sectors sec =
          some (set_sector_done (inc_current_index s)) := by
        rw [job_update_sector_sectors]
        exact sector_by_id_update_self _ sec (inc_current_index s) set_sector_done
          hsec2 rfl
      split
      · rw [set_job_done_sectors]
        exact hsec3
      · exact hsec3
    · rw [if_neg hb, if_neg hb]
      split
      · rw [set_job_done_sectors]
        exact hsec2
      · exact hsec2
  · rw [if_neg hadv, if_neg hadv]
    split
    · rw [set_job_done_sectors, hj1sec]
      exact hsbi
    · rw [hj1sec]
      exact hsbi

theorem orch_job_done_iff (v : Verdict) (sec : Int) (job : Job)
    (hstat : job.status ≠ "DONE") :
    ((orch_job v sec job).status = "DONE" ↔
      all_sectors_done (orch_job v sec job).sectors = true) := by
  unfold orch_job
  dsimp only
  set flds := v.fields.getD {} with hflds
  set j1 := (if (truthyS flds.macId || truthyS flds.rsn || flds.azimuthDeg.isSome) = true
      then promote_one flds job else job) with hj1
  have hj1sec : j1.sectors = job.sectors := by
    rw [hj1]; split <;> simp only [promote_one_sectors]
  have hj1st : j1.status = job.status := by
    rw [hj1]; split <;> simp only [promote_one_status]
  split
  · -- advance branch
    split
    · -- sector lookup failed after the $inc
      split
      · rename_i hall
        constructor
        · intro _; rw [set_job_done_sectors]; exact hall
        · intro _; exact set_job_done_status _
      · rename_i hall
        constructor
        · intro hd
          rw [job_update_sector_status, hj1st] at hd
          exact absurd hd hstat
        · intro ha; exact absurd ha hall
    · split
      · -- sector exhausted, DONE set
        split
        · rename_i hall
          constructor
          · intro _; rw [set_job_done_sectors]; exact hall
          · intro _; exact set_job_done_status _
        · rename_i hall
          constructor
          · intro hd
            rw [job_update_sector_status, job_update_sector_status, hj1st] at hd
            exact absurd hd hstat
          · intro ha; exact absurd ha hall
      · split
        · rename_i hall
          constructor
          · intro _; rw [set_job_done_sectors]; exact hall
          · intro _; exact set_job_done_status _
        · rename_i hall
          constructor
          · intro hd
            rw [job_update_sector_status, hj1st] at hd
            exact absurd hd hstat
          · intro ha; exact absurd ha hall
  · -- no-advance branch
    split
    · rename_i hall
      constructor
      · intro _; rw [set_job_done_sectors, hj1sec]; exact hall
      · intro _; exact set_job_done_status _
    · rename_i hall
      rw [hj1sec, hj1st]
      constructor
      · intro hd; exact absurd hd hstat
      · intro ha; exact absurd ha hall

theorem process_and_notify_noop (pipeline : Option String → List String → Verdict)
    (db : DB) (jid : String) (sec : Int) (decode_ok pipeline_ok : Bool)
    (h : decode_ok = false ∨ pipeline_ok = false) :
    _process_and_notify pipeline db jid sec decode_ok pipeline_ok = db := by
  unfold _process_and_notify
  cases hf : db.jobs.find? (fun j => j._id == jid) with
  | none => rfl
  | some job =>
    dsimp only
    rcases h with h | h
    · subst h; rfl
    · subst h
      cases decode_ok <;> rfl

theorem sector_state_process (pipeline : Option String → List String → Verdict)
    (db : DB) (jid : String) (sec : Int) (job : Job) (s : Sector)
    (hnd : (db.jobs.map (fun j => j._id)).Nodup)
    (hfind : db.jobs.find? (fun j => j._id == jid) = some job)
    (hsbi : sector_by_id job.sectors sec = some s) :
    sector_state (_process_and_notify pipeline db jid sec true true) jid sec =
      some (orch_sector
        (pipeline (_current_expected_type_for_sector job sec)
          (prev_phashes db.photos job._id sec
            (_current_expected_type_for_sector job sec))) s) := by
  have hjid : job._id = jid := by
    have hp := List.find?_some (p := fun (j : Job) => j._id == jid) hfind
    exact eq_of_beq hp
  subst hjid
  rw [process_and_notify_char pipeline db job._id sec job hnd hfind]
  unfold sector_state
  rw [find?_map_if db.jobs job._id job _ hfind (orch_job_id _ _ _)]
  exact orch_job_sector _ sec job s hsbi

theorem sector_incomplete_iff (s : Sector) :
    sector_incomplete s = true ↔
      (¬ py_upper s.status = "DONE" ∧ s.currentIndex < s.requiredTypes.length) := by
  simp [sector_incomplete]

theorem sector_incomplete_false_iff (s : Sector) :
    sector_incomplete s = false ↔
      (py_upper s.status = "DONE" ∨ s.requiredTypes.length ≤ s.currentIndex) := by
  rw [← Bool.not_eq_true, sector_incomplete_iff]
  constructor
  · intro h
    by_cases hst : py_upper s.status = "DONE"
    · exact Or.inl hst
    · right
      by_contra hlen
      exact h ⟨hst, Nat.lt_of_not_le hlen⟩
  · rintro (h | h) ⟨h1, h2⟩
    · exact h1 h
    · exact Nat.not_le_of_lt h2 h

/-- C4: the Active-Sector Selector returns the number of the first sector
in stored order that is not DONE and still has remaining required types,
and returns none exactly when no such sector exists.  (As a Lean function
it is pure and deterministic by construction.) -/
theorem claim4_active_sector_selector (job : Job) :
    (∀ n : Int, _pick_active_sector job = some n ↔
      ∃ pre s post, job.sectors = pre ++ s :: post ∧ s.sector = n ∧
        ¬ py_upper s.status = "DONE" ∧ s.currentIndex < s.requiredTypes.length ∧
        ∀ q ∈ pre, py_upper q.status = "DONE" ∨ q.requiredTypes.length ≤ q.currentIndex) ∧
    (_pick_active_sector job = none ↔
      ∀ s ∈ job.sectors, py_upper s.status = "DONE" ∨
        s.requiredTypes.length ≤ s.currentIndex) := by
  constructor
  · intro n
    constructor
    · intro h
      unfold _pick_active_sector at h
      rcases Option.map_eq_some'.mp h with ⟨s, hfind, hn⟩
      rcases List.find?_eq_some.mp hfind with ⟨hp, as, bs, heq, hpre⟩
      refine ⟨as, s, bs, heq, hn, ((sector_incomplete_iff s).mp hp).1,
        ((sector_incomplete_iff s).mp hp).2, ?_⟩
      intro q hq
      have h2 := hpre q hq
      rw [Bool.not_eq_eq_eq_not, Bool.not_true] at h2
      exact (sector_incomplete_false_iff q).mp h2
    · rintro ⟨pre, s, post, heq, hn, hst, hlt, hpre⟩
      unfold _pick_active_sector
      have hfind : job.sectors.find? sector_incomplete = some s := by
        apply List.find?_eq_some.mpr
        refine ⟨(sector_incomplete_iff s).mpr ⟨hst, hlt⟩, pre, post, heq, ?_⟩
        intro q hq
        have h2 := (sector_incomplete_false_iff q).mpr (hpre q hq)
        rw [Bool.not_eq_eq_eq_not, Bool.not_true]
        exact h2
      rw [hfind]
      simpa using hn
  · constructor
    · intro h s hs
      unfold _pick_active_sector at h
      have hnone : job.sectors.find? sector_incomplete = none := by
        cases hf : job.sectors.find? sector_incomplete with
        | none => rfl
        | some x => rw [hf] at h; cases h
      have h2 := List.find?_eq_none.mp hnone s hs
      rw [Bool.not_eq_true] at h2
      exact (sector_incomplete_false_iff s).mp h2
    · intro h
      unfold _pick_active_sector
      have hnone : job.sectors.find? sector_incomplete = none := by
        apply List.find?_eq_none.mpr
        intro s hs
        rw [Bool.not_eq_true]
        exact (sector_incomplete_false_iff s).mpr (h s hs)
      rw [hnone]
      rfl

/-- C5: the all-sectors-done predicate holds iff the sector list is
non-empty and every sector has status DONE or an exhausted currentIndex;
an index equal to the length suffices regardless of the stored status,
and the empty list is never all-done. -/
theorem claim5_all_sectors_done (ss : List Sector)
    (hcanon : ∀ s ∈ ss, s.status = "PENDING" ∨ s.status = "IN_PROGRESS" ∨
      s.status = "DONE") :
    (all_sectors_done ss = true ↔ ss ≠ [] ∧ ∀ s ∈ ss,
      s.status = "DONE" ∨ s.requiredTypes.length ≤ s.currentIndex) ∧
    (all_sectors_done ([] : List Sector) = false) ∧
    (ss ≠ [] → (∀ s ∈ ss, s.currentIndex = s.requiredTypes.length) →
      all_sectors_done ss = true) := by
  have hupper : ∀ s ∈ ss, (py_upper s.status = "DONE" ↔ s.status = "DONE") := by
    intro s hs
    rcases hcanon s hs with h | h | h <;> rw [h] <;> exact (by decide)
  constructor
  · constructor
    · intro h
      have h2 := h
      unfold all_sectors_done at h2
      have hne : ss ≠ [] := by
        intro he
        subst he
        simp [all_sectors_done] at h
      have hall := bool_and_left (a := !ss.isEmpty) (b := ss.all fun s => !sector_incomplete s) h2
      refine ⟨hne, ?_⟩
      intro s hs
      have h3 : (ss.all fun s => !sector_incomplete s) = true := by
        cases hx : ss.all fun s => !sector_incomplete s
        · rw [hx] at h2
          rw [Bool.and_false] at h2
          cases h2
        · rfl
      have h4 := List.all_eq_true.mp h3 s hs
      rw [Bool.not_eq_eq_eq_not, Bool.not_true] at h4
      rcases (sector_incomplete_false_iff s).mp h4 with h5 | h5
      · exact Or.inl ((hupper s hs).mp h5)
      · exact Or.inr h5
    · rintro ⟨hne, hall⟩
      unfold all_sectors_done
      apply bool_and_intro
      · cases ss with
        | nil => exact absurd rfl hne
        | cons a l => rfl
      · apply List.all_eq_true.mpr
        intro s hs
        rw [Bool.not_eq_eq_eq_not, Bool.not_true]
        apply (sector_incomplete_false_iff s).mpr
        rcases hall s hs with h | h
        · exact Or.inl ((hupper s hs).mpr h)
        · exact Or.inr h
  · refine ⟨rfl, ?_⟩
    intro hne hidx
    unfold all_sectors_done
    apply bool_and_intro
    · cases ss with
      | nil => exact absurd rfl hne
      | cons a l => rfl
    · apply List.all_eq_true.mpr
      intro s hs
      rw [Bool.not_eq_eq_eq_not, Bool.not_true]
      apply (sector_incomplete_false_iff s).mpr
      exact Or.inr (Nat.le_of_eq (hidx s hs).symm)

/-- C6: for a known, canonically uppercased expected type, the
duplicate-detection reference set contains a hash exactly when some photo
of the same job, the same sector and the same type, already resolved to
PASS or FAIL, carries that (non-empty) hash; hashes recorded under another
sector or another type never qualify. -/
theorem claim6_duplicate_scope (photos : List Photo) (jid : String) (sec : Int)
    (t h : String) (ht : py_upper t = t) (hh : h ≠ "") :
    h ∈ prev_phashes photos jid sec (some t) ↔
      ∃ p ∈ photos, p.jobId = jid ∧ p.sector = sec ∧ p.type = t ∧
        (p.status = some "PASS" ∨ p.status = some "FAIL") ∧ p.phash = some h := by
  unfold prev_phashes
  rw [List.mem_filterMap]
  constructor
  · rintro ⟨p, hp, hf⟩
    rw [List.mem_filter] at hp
    rcases hp with ⟨hmem, hflt⟩
    have hb1 := bool_and_left hflt
    have hb2 : (p.status == some "PASS" || p.status == some "FAIL") = true := by
      cases hx : p.status == some "PASS" || p.status == some "FAIL"
      · rw [hx, Bool.and_false] at hflt; cases hflt
      · rfl
    have hb3 := bool_and_left hb1
    have hb4 : (p.type == py_upper ((some t : Option String).getD "")) = true := by
      cases hx : p.type == py_upper ((some t : Option String).getD "")
      · rw [hx, Bool.and_false] at hb1; cases hb1
      · rfl
    have hb5 := bool_and_left hb3
    have hb6 : (p.sector == sec) = true := by
      cases hx : p.sector == sec
      · rw [hx, Bool.and_false] at hb3; cases hb3
      · rfl
    have hphash : p.phash = some h := by
      cases hph : p.phash with
      | none => rw [hph] at hf; cases hf
      | some h2 =>
        rw [hph] at hf
        dsimp only at hf
        by_cases he : h2 = ""
        · rw [if_pos he] at hf; cases hf
        · rw [if_neg he] at hf
          rw [Option.some.injEq] at hf
          rw [hf]
    refine ⟨p, hmem, eq_of_beq hb5, eq_of_beq hb6, ?_, ?_, hphash⟩
    · have : py_upper ((some t : Option String).getD "") = t := by
        simp [Option.getD, ht]
      rw [← this]
      exact eq_of_beq hb4
    · rcases bool_or_elim hb2 with h2 | h2
      · exact Or.inl (eq_of_beq h2)
      · exact Or.inr (eq_of_beq h2)
  · rintro ⟨p, hmem, hjid, hsec, htype, hstat, hphash⟩
    refine ⟨p, ?_, ?_⟩
    · rw [List.mem_filter]
      refine ⟨hmem, ?_⟩
      apply bool_and_intro
      apply bool_and_intro
      apply bool_and_intro
      · exact beq_iff_eq.mpr hjid
      · exact beq_iff_eq.mpr hsec
      · apply beq_iff_eq.mpr
        rw [htype]
        simp [Option.getD, ht]
      · rcases hstat with h2 | h2
        · rw [h2]; rfl
        · rw [h2]; rfl
    · rw [hphash]
      dsimp only
      rw [if_neg hh]

theorem advance_lt_of_cond (s : Sector) (v : Verdict)
    (hadv : advance_cond (py_upper (v.status.getD ""))
      (effective_result_type v s.requiredTypes[s.currentIndex]?)
      s.requiredTypes[s.currentIndex]? = true) :
    s.currentIndex < s.requiredTypes.length := by
  rcases advance_cond_expected _ _ _ hadv with ⟨t, het, _, _, _⟩
  rcases List.getElem?_eq_some_iff.mp het with ⟨hlt, _⟩
  exact hlt

theorem orch_sector_requiredTypes (v : Verdict) (s : Sector) :
    (orch_sector v s).requiredTypes = s.requiredTypes := by
  unfold orch_sector
  dsimp only
  repeat' split
  all_goals rfl

theorem orch_sector_currentIndex (v : Verdict) (s : Sector) :
    (orch_sector v s).currentIndex =
      (if advance_cond (py_upper (v.status.getD ""))
          (effective_result_type v s.requiredTypes[s.currentIndex]?)
          s.requiredTypes[s.currentIndex]? = true
        then s.currentIndex + 1 else s.currentIndex) := by
  unfold orch_sector
  dsimp only
  split
  · split <;> rfl
  · rfl

-- Example fixtures used by counterexamples and witnesses.

/-- C1 counterexample: on the one-sector job expecting "LABELLING", a PASS
verdict whose detected type is the different string "labelling" still
advances `currentIndex` from 0 to 1 (the code compares after uppercasing),
so "incremented iff the detected type exactly equals the expected type" is
false as stated. -/
theorem claim1_counterexample :
    _current_expected_type_for_sector ex_job1 1 = some "LABELLING" ∧
    ex_verdict_lower.type = some "labelling" ∧
    ex_verdict_lower.type ≠ some "LABELLING" ∧
    ex_verdict_lower.status = some "PASS" ∧
    sector_state (_process_and_notify ex_pipeline_lower ex_db1 "J1" 1 true true) "J1" 1 =
      some { sector := 1, requiredTypes := ["LABELLING", "AZIMUTH"], currentIndex := 1,
             status := "IN_PROGRESS" } := by
  refine ⟨rfl, rfl, by decide, rfl, ?_⟩
  rfl

/-- C1 (amended): for an orchestrator run against an existing job and
sector, `currentIndex` is incremented, and by exactly one, iff the
uppercased verdict status is PASS, the expected type is known and
non-empty, and the uppercased effective detected type (the verdict type
when truthy, else the expected type, else "LABELLING") string-equals the
expected type; otherwise it is unchanged; it never decreases and, started
within bounds, never exceeds `len(requiredTypes)`. -/
theorem claim1_amended_monotonic_advance
    (pipeline : Option String → List String → Verdict) (db : DB) (jid : String)
    (sec : Int) (job : Job) (s : Sector) (v : Verdict)
    (hnd : (db.jobs.map (fun j => j._id)).Nodup)
    (hfind : db.jobs.find? (fun j => j._id == jid) = some job)
    (hsbi : sector_by_id job.sectors sec = some s)
    (hv : v = pipeline (_current_expected_type_for_sector job sec)
        (prev_phashes db.photos job._id sec (_current_expected_type_for_sector job sec)))
    (hinv : s.currentIndex ≤ s.requiredTypes.length) :
    ∃ s2, sector_state (_process_and_notify pipeline db jid sec true true) jid sec =
        some s2 ∧
      s2.requiredTypes = s.requiredTypes ∧
      s2.currentIndex = (if advance_cond (py_upper (v.status.getD ""))
          (effective_result_type v s.requiredTypes[s.currentIndex]?)
          s.requiredTypes[s.currentIndex]? = true
        then s.currentIndex + 1 else s.currentIndex) ∧
      s.currentIndex ≤ s2.currentIndex ∧
      s2.currentIndex ≤ s.requiredTypes.length := by
  have hss := sector_state_process pipeline db jid sec job s hnd hfind hsbi
  rw [expected_of_sector job sec s hsbi] at hss
  rw [expected_of_sector job sec s hsbi] at hv
  rw [← hv] at hss
  refine ⟨orch_sector v s, hss, orch_sector_requiredTypes v s, orch_sector_currentIndex v s, ?_, ?_⟩
  · rw [orch_sector_currentIndex]
    split
    · exact Nat.le_succ _
    · exact Nat.le_refl _
  · rw [orch_sector_currentIndex]
    split
    · rename_i hadv
      exact advance_lt_of_cond s v hadv
    · exact hinv

/-- C1 (amended) witness: the happy-path scenario instantiated concretely,
advancing 0 to 1 on an exact uppercase PASS. -/
theorem claim1_amended_witness :
    ∃ s2, sector_state (_process_and_notify ex_pipeline_upper ex_db1 "J1" 1 true true)
        "J1" 1 = some s2 ∧
      s2.requiredTypes = ex_sector1.requiredTypes ∧
      s2.currentIndex = (if advance_cond (py_upper (ex_verdict_upper.status.getD ""))
          (effective_result_type ex_verdict_upper
            ex_sector1.requiredTypes[ex_sector1.currentIndex]?)
          ex_sector1.requiredTypes[ex_sector1.currentIndex]? = true
        then ex_sector1.currentIndex + 1 else ex_sector1.currentIndex) ∧
      ex_sector1.currentIndex ≤ s2.currentIndex ∧
      s2.currentIndex ≤ ex_sector1.requiredTypes.length := by
  exact claim1_amended_monotonic_advance ex_pipeline_upper ex_db1 "J1" 1 ex_job1
    ex_sector1 ex_verdict_upper (by decide) (by rfl) (by rfl) rfl (by decide)

/-- C3: after an orchestrator run that touches a sector satisfying the
done-iff-exhausted invariant, the sector still satisfies it, and its
status is only changed when the run actually advanced its index. -/
theorem claim3_done_iff_exhausted
    (pipeline : Option String → List String → Verdict) (db : DB) (jid : String)
    (sec : Int) (job : Job) (s : Sector)
    (hnd : (db.jobs.map (fun j => j._id)).Nodup)
    (hfind : db.jobs.find? (fun j => j._id == jid) = some job)
    (hsbi : sector_by_id job.sectors sec = some s)
    (hst : s.status = "DONE" ↔ s.currentIndex = s.requiredTypes.length)
    (hinv : s.currentIndex ≤ s.requiredTypes.length) :
    ∃ s2, sector_state (_process_and_notify pipeline db jid sec true true) jid sec =
        some s2 ∧
      (s2.status = "DONE" ↔ s2.currentIndex = s2.requiredTypes.length) ∧
      (s2.currentIndex = s.currentIndex → s2.status = s.status) := by
  have hss := sector_state_process pipeline db jid sec job s hnd hfind hsbi
  rw [expected_of_sector job sec s hsbi] at hss
  set v := pipeline s.requiredTypes[s.currentIndex]?
      (prev_phashes db.photos job._id sec s.requiredTypes[s.currentIndex]?) with hv
  refine ⟨orch_sector v s, hss, ?_, ?_⟩
  · unfold orch_sector
    dsimp only
    split
    · rename_i hadv
      have hlt := advance_lt_of_cond s v hadv
      split
      · rename_i hb
        dsimp only [set_sector_done, inc_current_index] at hb ⊢
        constructor
        · intro _
          omega
        · intro _
          rfl
      · rename_i hb
        dsimp only [inc_current_index] at hb ⊢
        constructor
        · intro hd
          exact absurd (hst.mp hd) (Nat.ne_of_lt hlt)
        · intro hlen
          exact absurd hlen (by omega)
    · exact hst
  · unfold orch_sector
    dsimp only
    split
    · rename_i hadv
      split
      · intro hix
        exact absurd hix (by dsimp only [set_sector_done, inc_current_index]; omega)
      · intro hix
        exact absurd hix (by dsimp only [inc_current_index]; omega)
    · intro _
      rfl

/-- C3 witness: the sector-completion scenario (one required type, exact
PASS): the sector ends with currentIndex 1 = len and status DONE, and the
invariant conjuncts hold. -/
theorem claim3_witness :
    ∃ s2, sector_state (_process_and_notify ex_pipeline_upper ex_dbB "J1" 1 true true)
        "J1" 1 = some s2 ∧
      (s2.status = "DONE" ↔ s2.currentIndex = s2.requiredTypes.length) ∧
      (s2.currentIndex = ex_sectorB.currentIndex → s2.status = ex_sectorB.status) := by
  exact claim3_done_iff_exhausted ex_pipeline_upper ex_dbB "J1" 1 ex_jobB ex_sectorB
    (by decide) (by rfl) (by rfl) (by decide) (by decide)

/-- C10: when the verdict carries no detected type (missing or empty), the
effective detected type defaults to the expected type, uppercased (or to
"LABELLING" when the expected type is also unknown); the resolved photo is
recorded under that effective type, and a PASS verdict with no detected
type therefore satisfies the advance comparison and increments the
sector's currentIndex. -/
theorem claim10_type_defaulting
    (pipeline : Option String → List String → Verdict) (db : DB) (jid : String)
    (sec : Int) (job : Job) (s : Sector) (v : Verdict) (t : String)
    (hnd : (db.jobs.map (fun j => j._id)).Nodup)
    (hfind : db.jobs.find? (fun j => j._id == jid) = some job)
    (hsbi : sector_by_id job.sectors sec = some s)
    (hv : v = pipeline (_current_expected_type_for_sector job sec)
        (prev_phashes db.photos job._id sec (_current_expected_type_for_sector job sec)))
    (ht : s.requiredTypes[s.currentIndex]? = some t) (htne : t ≠ "")
    (htu : py_upper t = t)
    (hvt : v.type = none ∨ v.type = some "")
    (hvs : py_upper (v.status.getD "") = "PASS") :
    effective_result_type v s.requiredTypes[s.currentIndex]? = t ∧
    (∀ v2 : Verdict, v2.type = none ∨ v2.type = some "" →
      effective_result_type v2 none = "LABELLING") ∧
    (∀ ph : Photo,
      (resolve_photo (effective_result_type v s.requiredTypes[s.currentIndex]?) v ph).type =
        effective_result_type v s.requiredTypes[s.currentIndex]?) ∧
    ∃ s2, sector_state (_process_and_notify pipeline db jid sec true true) jid sec =
        some s2 ∧
      s2.currentIndex = s.currentIndex + 1 := by
  have hrt : effective_result_type v s.requiredTypes[s.currentIndex]? = t := by
    rw [ht]
    unfold effective_result_type pyOrS
    dsimp only
    rw [if_neg htne]
    rcases hvt with h2 | h2 <;> rw [h2] <;> dsimp only
    · exact htu
    · rw [if_pos rfl]
      exact htu
  have hadv : advance_cond (py_upper (v.status.getD ""))
      (effective_result_type v s.requiredTypes[s.currentIndex]?)
      s.requiredTypes[s.currentIndex]? = true := by
    rw [hrt, ht, hvs]
    unfold advance_cond
    dsimp only
    apply bool_and_intro
    · rfl
    · apply bool_and_intro
      · exact bne_iff_ne.mpr htne
      · exact beq_self_eq_true t
  refine ⟨hrt, ?_, fun ph => rfl, ?_⟩
  · intro v2 h2
    rcases h2 with h2 | h2 <;>
      rw [effective_result_type, h2] <;> decide
  · have hss := sector_state_process pipeline db jid sec job s hnd hfind hsbi
    rw [expected_of_sector job sec s hsbi] at hss
    rw [expected_of_sector job sec s hsbi] at hv
    rw [← hv] at hss
    refine ⟨orch_sector v s, hss, ?_⟩
    rw [orch_sector_currentIndex, if_pos hadv]

/-- C10 witness: on the example job expecting "LABELLING", a PASS verdict
with a missing detected type is recorded as "LABELLING" and advances the
sector from index 0 to 1. -/
theorem claim10_witness :
    effective_result_type ex_verdict_notype
        ex_sector1.requiredTypes[ex_sector1.currentIndex]? = "LABELLING" ∧
    (∀ v2 : Verdict, v2.type = none ∨ v2.type = some "" →
      effective_result_type v2 none = "LABELLING") ∧
    (∀ ph : Photo,
      (resolve_photo (effective_result_type ex_verdict_notype
          ex_sector1.requiredTypes[ex_sector1.currentIndex]?) ex_verdict_notype ph).type =
        effective_result_type ex_verdict_notype
          ex_sector1.requiredTypes[ex_sector1.currentIndex]?) ∧
    ∃ s2, sector_state (_process_and_notify ex_pipeline_notype ex_db1 "J1" 1 true true)
        "J1" 1 = some s2 ∧
      s2.currentIndex = ex_sector1.currentIndex + 1 := by
  exact claim10_type_defaulting ex_pipeline_notype ex_db1 "J1" 1 ex_job1 ex_sector1
    ex_verdict_notype "LABELLING" (by decide) (by rfl) (by rfl) rfl (by rfl)
    (by decide) (by decide) (Or.inl rfl) (by decide)

/-- C7: on a (workerPhone, siteId) pair that already has a job, a creation
request naming an existing sector number is rejected with an error and the
store is left unchanged; a new sector number appends exactly one sector
block with currentIndex 0 (and status PENDING) to that job's sector list,
leaving the rest of the job unchanged. -/
theorem claim7_duplicate_sector_rejected
    (reqFor : Int → List String) (db : DB) (workerPhone siteId : String)
    (sector : Int) (now new_id : String) (base : Job)
    (hnd : (db.jobs.map (fun j => j._id)).Nodup)
    (hw : ¬ py_strip workerPhone = "") (hs : ¬ py_strip siteId = "")
    (hfind : db.jobs.find? (fun j =>
        j.workerPhone == normalize_phone (py_strip workerPhone) &&
        j.siteId == py_strip siteId) = some base) :
    (∀ s0, sector_by_id base.sectors sector = some s0 →
      (create_or_extend_job reqFor db workerPhone siteId sector now new_id).1 = db ∧
      ∃ msg, (create_or_extend_job reqFor db workerPhone siteId sector now new_id).2 =
        Except.error msg) ∧
    (sector_by_id base.sectors sector = none →
      job_state (create_or_extend_job reqFor db workerPhone siteId sector now new_id).1
          base._id =
        some { base with sectors := base.sectors ++
          [{ sector := sector, requiredTypes := reqFor sector, currentIndex := 0,
             status := "PENDING" }] }) := by
  have hfid : db.jobs.find? (fun j => j._id == base._id) = some base :=
    find?_of_mem_nodup db.jobs base._id base hnd (List.mem_of_find?_eq_some hfind) rfl
  unfold create_or_extend_job
  dsimp only
  rw [if_neg (by simp [hw, hs])]
  rw [hfind]
  dsimp only
  constructor
  · intro s0 hs0
    rw [hs0]
    exact ⟨rfl, _, rfl⟩
  · intro hnone
    rw [hnone]
    dsimp only
    have hupd := update_first_job_eq_map db.jobs base._id base (id_filter base._id)
      (fun j => { j with sectors := j.sectors ++
        [{ sector := sector, requiredTypes := reqFor sector, currentIndex := 0,
           status := "PENDING" }] })
      hnd hfid (beq_self_eq_true _) (fun j _ hq => eq_of_beq hq)
    rw [hupd]
    have hreload : List.find? (id_filter base._id)
        (db.jobs.map (fun j => if j._id = base._id then
          { base with sectors := base.sectors ++
            [{ sector := sector, requiredTypes := reqFor sector, currentIndex := 0,
               status := "PENDING" }] } else j)) =
        some { base with sectors := base.sectors ++
          [{ sector := sector, requiredTypes := reqFor sector, currentIndex := 0,
             status := "PENDING" }] } :=
      find?_map_if db.jobs base._id base _ hfid rfl
    dsimp only
    rw [hreload]
    dsimp only
    unfold job_state
    rw [find?_map_if db.jobs base._id base
      ({ base with sectors := base.sectors ++
        [{ sector := sector, requiredTypes := reqFor sector, currentIndex := 0,
           status := "PENDING" }] }) hfid rfl]

/-- C7 witness: with one job for ("9999", "S1") holding sector 1, adding
sector 1 again errors and leaves the store unchanged, while adding
sector 2 appends exactly the new zero-index block. -/
theorem claim7_witness :
    (∀ s0, sector_by_id ex_job1.sectors 1 = some s0 →
      (create_or_extend_job (fun _ => ["LABELLING"]) ex_db1 "9999" "S1" 1 "t0" "N1").1 =
        ex_db1 ∧
      ∃ msg, (create_or_extend_job (fun _ => ["LABELLING"]) ex_db1 "9999" "S1" 1 "t0" "N1").2 =
        Except.error msg) ∧
    (sector_by_id ex_job1.sectors 1 = none →
      job_state (create_or_extend_job (fun _ => ["LABELLING"]) ex_db1 "9999" "S1" 1 "t0" "N1").1
          ex_job1._id =
        some { ex_job1 with sectors := ex_job1.sectors ++
          [{ sector := 1, requiredTypes := ["LABELLING"], currentIndex := 0,
             status := "PENDING" }] }) := by
  exact claim7_duplicate_sector_rejected (fun _ => ["LABELLING"]) ex_db1 "9999" "S1" 1
    "t0" "N1" ex_job1 (by decide) (by decide) (by decide) (by rfl)

/-- C8: when a media-bearing inbound event with an in-flight job and an
active sector reaches the persistence step and the blob-store write or
placeholder insert fails, the webhook replies with the could-not-save retry
prompt, schedules no background task, and inserts no photo; and whenever a
background task is scheduled (any persistence outcome), the store already
holds the freshly appended placeholder photo with status PROCESSING for
that task's job, sector and type hint. -/
theorem claim8_persist_failure
    (db : DB) (fp : String) (mc : Nat) (mi fo : Bool) (key : String)
    (u : Option String) (job : Job) (n : Int)
    (hnd : (db.jobs.map (fun j => j._id)).Nodup)
    (hfind : db.jobs.find? (fun j => j.workerPhone == normalize_phone fp &&
        (j.status == "PENDING" || j.status == "IN_PROGRESS")) = some job)
    (hpk : _pick_active_sector job = some n)
    (hmc : ¬ mc = 0) (hmi : mi = true) (hfo : fo = true) :
    (whatsapp_webhook db fp mc mi fo false key u).2.1 = none ∧
    (whatsapp_webhook db fp mc mi fo false key u).2.2 = Reply.saveFailed ∧
    (whatsapp_webhook db fp mc mi fo false key u).1.photos = db.photos ∧
    (∀ (po : Bool) (t : BgTask),
      (whatsapp_webhook db fp mc mi fo po key u).2.1 = some t →
      ∃ ph, (whatsapp_webhook db fp mc mi fo po key u).1.photos = db.photos ++ [ph] ∧
        ph.status = some "PROCESSING" ∧ ph.jobId = t.jobId ∧ ph.sector = t.sector ∧
        ph.type = t.hint) := by
  subst hmi hfo
  have hfid : db.jobs.find? (fun j => j._id == job._id) = some job :=
    find?_of_mem_nodup db.jobs job._id job hnd (List.mem_of_find?_eq_some hfind) rfl
  unfold whatsapp_webhook
  dsimp only
  rw [hfind]
  dsimp only
  by_cases hp : (job.status == "PENDING") = true
  · simp only [hp, if_true]
    have hupd := update_first_job_eq_map db.jobs job._id job (id_filter job._id)
      (fun j => { j with status := "IN_PROGRESS" }) hnd hfid (beq_self_eq_true _)
      (fun j _ hq => eq_of_beq hq)
    rw [hupd]
    dsimp only
    have hreload : List.find? (id_filter job._id)
        (db.jobs.map (fun j => if j._id = job._id then
          { job with status := "IN_PROGRESS" } else j)) =
        some { job with status := "IN_PROGRESS" } :=
      find?_map_if db.jobs job._id job _ hfid rfl
    rw [hreload]
    dsimp only
    have hpk2 : _pick_active_sector { job with status := "IN_PROGRESS" } = some n := hpk
    rw [hpk2]
    dsimp only
    simp only [if_neg hmc, Bool.not_true, Bool.false_eq_true, if_false]
    refine ⟨rfl, rfl, rfl, ?_⟩
    intro po t ht
    cases po with
    | false =>
      simp only [Bool.not_false, if_true] at ht
      cases ht
    | true =>
      simp only [Bool.not_true, Bool.false_eq_true, if_false] at ht ⊢
      rw [Option.some.injEq] at ht
      subst ht
      exact ⟨_, rfl, rfl, rfl, rfl, rfl⟩
  · simp only [hp, Bool.false_eq_true, if_false]
    rw [hpk]
    dsimp only
    simp only [if_neg hmc, Bool.not_true, Bool.false_eq_true, if_false]
    refine ⟨rfl, rfl, rfl, ?_⟩
    intro po t ht
    cases po with
    | false =>
      simp only [Bool.not_false, if_true] at ht
      cases ht
    | true =>
      simp only [Bool.not_true, Bool.false_eq_true, if_false] at ht ⊢
      rw [Option.some.injEq] at ht
      subst ht
      exact ⟨_, rfl, rfl, rfl, rfl, rfl⟩

/-- C8 witness: persist failure on the example job yields the retry reply
and no task; and a successful persist schedules the task with the
placeholder appended. -/
theorem claim8_witness :
    (whatsapp_webhook ex_db1 "9999" 1 true true false "k1" none).2.1 = none ∧
    (whatsapp_webhook ex_db1 "9999" 1 true true false "k1" none).2.2 = Reply.saveFailed ∧
    (whatsapp_webhook ex_db1 "9999" 1 true true false "k1" none).1.photos = ex_db1.photos ∧
    (∀ (po : Bool) (t : BgTask),
      (whatsapp_webhook ex_db1 "9999" 1 true true po "k1" none).2.1 = some t →
      ∃ ph, (whatsapp_webhook ex_db1 "9999" 1 true true po "k1" none).1.photos =
          ex_db1.photos ++ [ph] ∧
        ph.status = some "PROCESSING" ∧ ph.jobId = t.jobId ∧ ph.sector = t.sector ∧
        ph.type = t.hint) := by
  exact claim8_persist_failure ex_db1 "9999" 1 true true "k1" none ex_job1 1
    (by decide) (by rfl) (by rfl) (by decide) rfl rfl

theorem mem_update_first_photo (l : List Photo) (p : Photo → Bool)
    (f : Photo → Photo) (x : Photo) (hx : x ∈ update_first_photo l p f) :
    x ∈ l ∨ ∃ y ∈ l, x = f y := by
  induction l with
  | nil => cases hx
  | cons a rest ih =>
    by_cases hpa : p a = true
    · rw [update_first_photo, if_pos hpa] at hx
      rcases List.mem_cons.mp hx with rfl | h2
      · exact Or.inr ⟨a, List.mem_cons_self _ _, rfl⟩
      · exact Or.inl (List.mem_cons_of_mem a h2)
    · rw [update_first_photo, if_neg hpa] at hx
      rcases List.mem_cons.mp hx with rfl | h2
      · exact Or.inl (List.mem_cons_self _ _)
      · rcases ih h2 with h3 | ⟨y, hy, hxy⟩
        · exact Or.inl (List.mem_cons_of_mem a h3)
        · exact Or.inr ⟨y, List.mem_cons_of_mem a hy, hxy⟩

theorem mem_update_last_photo (l : List Photo) (jid : String)
    (f : Photo → Photo) (x : Photo) (hx : x ∈ update_last_photo l jid f) :
    x ∈ l ∨ ∃ y ∈ l, x = f y := by
  unfold update_last_photo at hx
  rw [List.mem_reverse] at hx
  rcases mem_update_first_photo _ _ _ _ hx with h | ⟨y, hy, hxy⟩
  · exact Or.inl (List.mem_reverse.mp h)
  · exact Or.inr ⟨y, List.mem_reverse.mp hy, hxy⟩

/-- C9: every photo record resolved by the pipeline — the orchestrator's
overwrite of the newest photo, and the direct-upload insert — has an empty
reason list whenever its status is PASS, assuming the pipeline meets its
verdict contract; photos already in the store keep the property. -/
theorem claim9_pass_reason_empty
    (pipeline : Option String → List String → Verdict) (db : DB) (jid : String)
    (sec : Int) (job : Job)
    (hnd : (db.jobs.map (fun j => j._id)).Nodup)
    (hfind : db.jobs.find? (fun j => j._id == jid) = some job)
    (hwf : verdict_wf (pipeline (_current_expected_type_for_sector job sec)
        (prev_phashes db.photos job._id sec (_current_expected_type_for_sector job sec))))
    (hall : ∀ p ∈ db.photos, p.status = some "PASS" → p.reason = []) :
    (∀ p ∈ (_process_and_notify pipeline db jid sec true true).photos,
      p.status = some "PASS" → p.reason = []) ∧
    (∀ (jb : String) (sc : Int) (k : String) (u : Option String) (rt : String)
        (v2 : Verdict), verdict_wf v2 →
      (debug_photo_doc jb sc k u rt v2).status = some "PASS" →
      (debug_photo_doc jb sc k u rt v2).reason = []) := by
  constructor
  · intro p hp hps
    rw [process_and_notify_char pipeline db jid sec job hnd hfind] at hp
    dsimp only at hp
    rcases mem_update_last_photo _ _ _ _ hp with h | ⟨y, _, rfl⟩
    · exact hall p h hps
    · exact hwf.2 hps
  · intro jb sc k u rt v2 hwf2 hps
    exact hwf2.2 hps

/-- C9 witness: concrete instance of the preservation statement, on the
example store (no prior photos) and an exact-PASS verdict with empty
reasons. -/
theorem claim9_witness :
    (∀ p ∈ (_process_and_notify ex_pipeline_upper ex_db1 "J1" 1 true true).photos,
      p.status = some "PASS" → p.reason = []) ∧
    (∀ (jb : String) (sc : Int) (k : String) (u : Option String) (rt : String)
        (v2 : Verdict), verdict_wf v2 →
      (debug_photo_doc jb sc k u rt v2).status = some "PASS" →
      (debug_photo_doc jb sc k u rt v2).reason = []) := by
  exact claim9_pass_reason_empty ex_pipeline_upper ex_db1 "J1" 1 ex_job1
    (by decide) (by rfl) (by decide) (by intro p hp; cases hp)

theorem bool_and_right {a b : Bool} (h : (a && b) = true) : b = true := by
  cases a
  · simp at h
  · simpa using h

theorem alldone_of_pick_none (j : Job) (hne : j.sectors ≠ [])
    (h : _pick_active_sector j = none) : all_sectors_done j.sectors = true := by
  unfold _pick_active_sector at h
  have hfn : j.sectors.find? sector_incomplete = none := by
    cases hf : j.sectors.find? sector_incomplete with
    | none => rfl
    | some x => rw [hf] at h; cases h
  unfold all_sectors_done
  apply bool_and_intro
  · cases hs : j.sectors with
    | nil => exact absurd hs hne
    | cons a rest => rfl
  · apply List.all_eq_true.mpr
    intro s hs
    have h2 := List.find?_eq_none.mp hfn s hs
    cases hsi : sector_incomplete s
    · rfl
    · exact absurd hsi h2

theorem not_alldone_of_pick_some (j : Job) (n : Int)
    (h : _pick_active_sector j = some n) : all_sectors_done j.sectors = false := by
  unfold _pick_active_sector at h
  rcases Option.map_eq_some'.mp h with ⟨s, hf, _⟩
  have hmem := List.mem_of_find?_eq_some hf
  have hp := List.find?_some (p := sector_incomplete) hf
  have hall : (j.sectors.all fun s => !sector_incomplete s) = false := by
    cases hallc : j.sectors.all fun s => !sector_incomplete s
    · rfl
    · exfalso
      have h2 := List.all_eq_true.mp hallc s hmem
      rw [hp] at h2
      cases h2
  unfold all_sectors_done
  rw [hall, Bool.and_false]

/-- Tail helper for the full-event analysis: an orchestrator run (whatever
the decode and pipeline outcomes) against a job whose status is
IN_PROGRESS and whose sectors are not yet all done leaves the job
satisfying the DONE-iff-all-sectors-done equivalence. -/
theorem orch_done_iff_db (pipeline : Option String → List String → Verdict)
    (db2 : DB) (jid : String) (sec : Int) (jp : Job) (dec pok : Bool)
    (hnd2 : (db2.jobs.map (fun j => j._id)).Nodup)
    (hfind2 : db2.jobs.find? (fun j => j._id == jid) = some jp)
    (hstat : jp.status = "IN_PROGRESS")
    (hall : all_sectors_done jp.sectors = false) :
    ∃ j2, job_state (_process_and_notify pipeline db2 jid sec dec pok) jid = some j2 ∧
      (j2.status = "DONE" ↔ all_sectors_done j2.sectors = true) := by
  have hjid : jp._id = jid := by
    have hq := List.find?_some (p := fun (j : Job) => j._id == jid) hfind2
    exact eq_of_beq hq
  cases dec with
  | false =>
    rw [process_and_notify_noop pipeline db2 jid sec false pok (Or.inl rfl)]
    refine ⟨jp, hfind2, ?_⟩
    rw [hstat, hall]
    constructor
    · intro hd; exact absurd hd (by decide)
    · intro hd; exact absurd hd (by decide)
  | true =>
    cases pok with
    | false =>
      rw [process_and_notify_noop pipeline db2 jid sec true false (Or.inr rfl)]
      refine ⟨jp, hfind2, ?_⟩
      rw [hstat, hall]
      constructor
      · intro hd; exact absurd hd (by decide)
      · intro hd; exact absurd hd (by decide)
    | true =>
      rw [process_and_notify_char pipeline db2 jid sec jp hnd2 hfind2]
      unfold job_state
      rw [hjid]
      refine ⟨_, find?_map_if db2.jobs jid jp _ hfind2 (by rw [orch_job_id, hjid]), ?_⟩
      exact orch_job_done_iff _ sec jp (by rw [hstat]; decide)

/-- C2: after one inbound messaging event is fully processed (the webhook
plus the background orchestrator run it scheduled, whatever the media,
fetch, persistence, decode and pipeline outcomes), the targeted job's
status is DONE iff its (non-empty) sector list satisfies the all-sectors-
done predicate. -/
theorem claim2_job_done_iff
    (pipeline : Option String → List String → Verdict) (db : DB) (fp : String)
    (mc : Nat) (mi fo po dec pok : Bool) (key : String) (u : Option String) (job : Job)
    (hnd : (db.jobs.map (fun j => j._id)).Nodup)
    (hfind : db.jobs.find? (fun j => j.workerPhone == normalize_phone fp &&
        (j.status == "PENDING" || j.status == "IN_PROGRESS")) = some job)
    (hne : job.sectors ≠ []) :
    ∃ j2, job_state (process_inbound_event pipeline db fp mc mi fo po dec pok key u).1
        job._id = some j2 ∧
      (j2.status = "DONE" ↔ all_sectors_done j2.sectors = true) := by
  have hfid : db.jobs.find? (fun j => j._id == job._id) = some job :=
    find?_of_mem_nodup db.jobs job._id job hnd (List.mem_of_find?_eq_some hfind) rfl
  have hflt := List.find?_some (p := fun (j : Job) =>
    j.workerPhone == normalize_phone fp &&
    (j.status == "PENDING" || j.status == "IN_PROGRESS")) hfind
  have hstat2 := bool_and_right hflt
  unfold process_inbound_event whatsapp_webhook
  dsimp only
  rw [hfind]
  dsimp only
  by_cases hp : (job.status == "PENDING") = true
  · simp only [hp, if_true]
    have hupd := update_first_job_eq_map db.jobs job._id job (id_filter job._id)
      (fun j => { j with status := "IN_PROGRESS" }) hnd hfid (beq_self_eq_true _)
      (fun j _ hq => eq_of_beq hq)
    rw [hupd]
    dsimp only
    have hreload : List.find? (id_filter job._id)
        (db.jobs.map (fun j => if j._id = job._id then
          { job with status := "IN_PROGRESS" } else j)) =
        some { job with status := "IN_PROGRESS" } :=
      find?_map_if db.jobs job._id job _ hfid rfl
    rw [hreload]
    dsimp only
    have hnd1 : ((db.jobs.map (fun j => if j._id = job._id then
        { job with status := "IN_PROGRESS" } else j)).map (fun j => j._id)).Nodup := by
      rw [ids_map_if db.jobs job._id ({ job with status := "IN_PROGRESS" }) rfl]
      exact hnd
    have hfind1 : (db.jobs.map (fun j => if j._id = job._id then
        { job with status := "IN_PROGRESS" } else j)).find?
        (fun j => j._id == job._id) = some { job with status := "IN_PROGRESS" } :=
      find?_map_if db.jobs job._id job _ hfid rfl
    cases hpk : _pick_active_sector job with
    | none =>
      have hpk2 : _pick_active_sector { job with status := "IN_PROGRESS" } = none := hpk
      rw [hpk2]
      dsimp only
      have hdone := update_first_job_map_if db.jobs job._id job
        { job with status := "IN_PROGRESS" } (id_filter job._id) set_job_done
        hnd hfid rfl (beq_self_eq_true _) (fun j hq => eq_of_beq hq)
      rw [hdone]
      unfold job_state
      refine ⟨_, find?_map_if db.jobs job._id job _ hfid rfl, ?_⟩
      constructor
      · intro _
        exact alldone_of_pick_none job hne hpk
      · intro _
        rfl
    | some n =>
      have hpk2 : _pick_active_sector { job with status := "IN_PROGRESS" } = some n := hpk
      rw [hpk2]
      dsimp only
      have hall : all_sectors_done job.sectors = false := not_alldone_of_pick_some job n hpk
      have hbase : ∃ j2, job_state ⟨db.jobs.map (fun j => if j._id = job._id then { job with status := "IN_PROGRESS" } else j), db.photos⟩ job._id = some j2 ∧ (j2.status = "DONE" ↔ all_sectors_done j2.sectors = true) := by
        refine ⟨_, hfind1, ?_⟩
        constructor
        · intro hd
          exact absurd hd (show ¬ ("IN_PROGRESS" : String) = "DONE" by decide)
        · intro hd
          rw [show ({ job with status := "IN_PROGRESS" } : Job).sectors = job.sectors
            from rfl, hall] at hd
          cases hd
      by_cases hmc : mc = 0
      · simp only [if_pos hmc]
        exact hbase
      · simp only [if_neg hmc]
        cases mi with
        | false =>
          simp only [Bool.not_false, if_true]
          exact hbase
        | true =>
          simp only [Bool.not_true, Bool.false_eq_true, if_false]
          cases fo with
          | false =>
            simp only [Bool.not_false, if_true]
            exact hbase
          | true =>
            simp only [Bool.not_true, Bool.false_eq_true, if_false]
            cases po with
            | false =>
              simp only [Bool.not_false, if_true]
              exact hbase
            | true =>
              simp only [Bool.not_true, Bool.false_eq_true, if_false]
              exact orch_done_iff_db pipeline _ job._id n
                { job with status := "IN_PROGRESS" } dec pok hnd1 hfind1 rfl hall
  · simp only [hp, Bool.false_eq_true, if_false]
    have hstat : job.status = "IN_PROGRESS" := by
      rcases bool_or_elim hstat2 with h2 | h2
      · exact absurd h2 hp
      · exact eq_of_beq h2
    cases hpk : _pick_active_sector job with
    | none =>
      dsimp only
      have hdone := update_first_job_eq_map db.jobs job._id job (id_filter job._id)
        set_job_done hnd hfid (beq_self_eq_true _) (fun j _ hq => eq_of_beq hq)
      rw [hdone]
      unfold job_state
      refine ⟨_, find?_map_if db.jobs job._id job _ hfid rfl, ?_⟩
      constructor
      · intro _
        exact alldone_of_pick_none job hne hpk
      · intro _
        rfl
    | some n =>
      dsimp only
      have hall : all_sectors_done job.sectors = false := not_alldone_of_pick_some job n hpk
      have hbase : ∃ j2, job_state db job._id = some j2 ∧
          (j2.status = "DONE" ↔ all_sectors_done j2.sectors = true) := by
        refine ⟨job, hfid, ?_⟩
        rw [hstat, hall]
        constructor
        · intro hd; exact absurd hd (by decide)
        · intro hd; exact absurd hd (by decide)
      by_cases hmc : mc = 0
      · simp only [if_pos hmc]
        exact hbase
      · simp only [if_neg hmc]
        cases mi with
        | false =>
          simp only [Bool.not_false, if_true]
          exact hbase
        | true =>
          simp only [Bool.not_true, Bool.false_eq_true, if_false]
          cases fo with
          | false =>
            simp only [Bool.not_false, if_true]
            exact hbase
          | true =>
            simp only [Bool.not_true, Bool.false_eq_true, if_false]
            cases po with
            | false =>
              simp only [Bool.not_false, if_true]
              exact hbase
            | true =>
              simp only [Bool.not_true, Bool.false_eq_true, if_false]
              exact orch_done_iff_db pipeline _ job._id n job dec pok hnd hfid hstat hall

/-- C2 witness: the happy-path event on the example store (one in-flight
job, sector 1 expecting LABELLING then AZIMUTH, exact PASS verdict): the
job afterwards satisfies DONE iff all-sectors-done. -/
theorem claim2_witness :
    ∃ j2, job_state (process_inbound_event ex_pipeline_upper ex_db1 "9999" 1 true true
        true true true "k1" none).1 ex_job1._id = some j2 ∧
      (j2.status = "DONE" ↔ all_sectors_done j2.sectors = true) := by
  exact claim2_job_done_iff ex_pipeline_upper ex_db1 "9999" 1 true true true true true
    "k1" none ex_job1 (by decide) (by rfl) (by decide)

/-- C4 witness: the spec's skip-done example — sector 1 DONE and
exhausted, sector 2 pending — selects sector 2. -/
theorem claim4_witness : _pick_active_sector ex_selJob = some 2 := by
  exact ((claim4_active_sector_selector ex_selJob).1 2).mpr
    ⟨[{ sector := 1, requiredTypes := ["A", "B"], currentIndex := 2,
        status := "DONE" }],
     { sector := 2, requiredTypes := ["A", "B", "C"], currentIndex := 0,
       status := "PENDING" },
     [], rfl, rfl, by decide, by decide, by decide⟩

/-- C5 witness: a sector with currentIndex equal to its length counts as
done regardless of its stored PENDING status, and the empty list is never
all-done. -/
theorem claim5_witness :
    (all_sectors_done ex_ssC = true ↔ ex_ssC ≠ [] ∧ ∀ s ∈ ex_ssC,
      s.status = "DONE" ∨ s.requiredTypes.length ≤ s.currentIndex) ∧
    (all_sectors_done ([] : List Sector) = false) ∧
    (ex_ssC ≠ [] → (∀ s ∈ ex_ssC, s.currentIndex = s.requiredTypes.length) →
      all_sectors_done ex_ssC = true) := by
  exact claim5_all_sectors_done ex_ssC (by decide)

/-- C6 witness: the reference-set membership characterization at a
concrete one-photo store. -/
theorem claim6_witness :
    "h1" ∈ prev_phashes [ex_photo_pass] "J1" 1 (some "LABELLING") ↔
      ∃ p ∈ [ex_photo_pass], p.jobId = "J1" ∧ p.sector = 1 ∧
        p.type = "LABELLING" ∧ (p.status = some "PASS" ∨ p.status = some "FAIL") ∧
        p.phash = some "h1" := by
  exact claim6_duplicate_scope [ex_photo_pass] "J1" 1 "LABELLING" "h1"
    (by decide) (by decide)

end FieldLens
